import Mathlib

set_option maxRecDepth 8000

/-!
Shallow embedding of the record-dispatch core of `src/logbook/base.py`.

Python objects are modelled by the inductive `Val`; an object's instance
dictionary (`__dict__`) is the association list `PyDict`.  Attribute access
falls back to the class-level defaults of `LogRecord` (`classDefault`),
mirroring Python attribute lookup.  Assertion failures and other raised
exceptions are modelled by `PyErr`.  External collaborators (frames, the
format engine, thread identity, processors, handler callbacks) are opaque
to the core and are therefore parameters: the structure `Env` packages the
ambient interpreter facilities, and handler / processor callbacks are
function arguments, exactly at the boundary the source treats them as
opaque callables.
-/

/-- A Python value, as far as the logbook core inspects values. -/
inductive Val : Type where
  | none
  | bool (b : Bool)
  | int (n : Int)
  | str (s : String)
  | time (t : Nat)
  | timeStr (t : Nat)
  | tuple (elems : List Val)
  | dict (entries : List (String × Val))
  | extradict (entries : List (String × Val))
  | frame (f : Nat)
  | ref (r : Nat)

/-- A Python instance `__dict__`: an association list keyed by attribute
name, first match wins, insertion appends. -/
abbrev PyDict := List (String × Val)

/-- Raised exceptions that the embedded core can produce. -/
inductive PyErr : Type where
  | assertNoException
  | assertHeavyLate
  | indexError
  | keyError
deriving DecidableEq

/-- Dictionary lookup (`d[k]` / `d.get(k)`). -/
def pyGet : PyDict → String → Option Val
  | [], _ => Option.none
  | (k', v) :: rest, k => if k' = k then some v else pyGet rest k

/-- Dictionary assignment (`d[k] = v` / `setattr`): replaces in place,
appends a fresh key. -/
def pySet : PyDict → String → Val → PyDict
  | [], k, v => [(k, v)]
  | (k', v') :: rest, k, v =>
    if k' = k then (k, v) :: rest else (k', v') :: pySet rest k v

/-- Key removal (`d.pop(k, default)` discards the entry). -/
def pyDel : PyDict → String → PyDict
  | [], _ => []
  | (k', v') :: rest, k => if k' = k then rest else (k', v') :: pyDel rest k

/-- `d.update(upd)`: assign every entry of `upd` into `d`, in order. -/
def pyUpdate (d : PyDict) (upd : PyDict) : PyDict :=
  upd.foldl (fun acc kv => pySet acc kv.1 kv.2) d

/-- Python truthiness of a `Val`. -/
def truthy : Val → Bool
  | Val.none => false
  | Val.bool b => b
  | Val.int n => n != 0
  | Val.str s => s != ""
  | Val.time _ => true
  | Val.timeStr _ => true
  | Val.tuple es => !es.isEmpty
  | Val.dict es => !es.isEmpty
  | Val.extradict es => !es.isEmpty
  | Val.frame _ => true
  | Val.ref _ => true

/-- Class-level attribute defaults of `LogRecord` (base.py lines 346-362):
`keep_open = False`, `time = None`, `heavy_initialized = False`,
`late = False`, `information_pulled = False`.  Any other absent attribute
is modelled as `none`. -/
def classDefault : String → Val
  | "keep_open" => Val.bool false
  | "time" => Val.none
  | "heavy_initialized" => Val.bool false
  | "late" => Val.bool false
  | "information_pulled" => Val.bool false
  | _ => Val.none

/-- Attribute read `obj.k`: instance dict first, then the class default. -/
def pyGetAttr (r : PyDict) (k : String) : Val :=
  match pyGet r k with
  | some v => v
  | Option.none => classDefault k

/-- `LogRecord._noned_on_close` (base.py line 342). -/
def nonedOnClose : List String := ["exc_info", "frame", "calling_frame"]

/-- First character is an underscore (`key[:1] == '_'`). -/
def startsUnderscore (k : String) : Bool :=
  match k.data with
  | [] => false
  | c :: _ => c = '_'

/-- A key exported by `to_dict`: not private and not frame-related
(base.py line 453). -/
def goodKey (k : String) : Bool :=
  !(startsUnderscore k) && !(nonedOnClose.contains k)

/-- The ambient interpreter facilities that `LogRecord` consults: process
id, clock, stack introspection, thread identity, the format engine and
traceback rendering.  All are opaque external collaborators of the core. -/
structure Env : Type where
  pid : Int
  now : Nat
  curFrame : Nat
  walkFrame : Val → Val
  funcNameOf : Val → Val
  moduleOf : Val → Val
  filenameOf : Val → Val
  linenoOf : Val → Val
  threadIdent : Val
  threadName : Val
  processName : Val
  formatMsg : Val → Val → Val → Val
  formatException : Val → Val
  excName : Val → Val
  excMessage : Val → Val
  parseIso : Nat → Nat

/-- `LogRecord.__init__` (base.py lines 364-397): stores the inputs in
order; `args or ()`, `kwargs or {}`, `extra` wrapped in an `ExtraDict`,
`process = None`, and the dispatcher kept behind a weak reference (the
reference itself stands in for the weakref). -/
def LogRecord_init (channel level msg args kwargs exc_info extra frame dispatcher : Val) :
    PyDict :=
  let argsV := if truthy args then args else Val.tuple []
  let kwargsV := if truthy kwargs then kwargs else Val.dict []
  let extraSrc := if truthy extra then extra else Val.tuple []
  let extraV := Val.extradict (match extraSrc with
    | Val.dict es => es
    | Val.extradict es => es
    | _ => [])
  let dispV := match dispatcher with
    | Val.none => Val.none
    | d => d
  [("channel", channel), ("msg", msg), ("args", argsV), ("kwargs", kwargsV),
   ("level", level), ("exc_info", exc_info), ("extra", extraV), ("frame", frame),
   ("process", Val.none), ("_dispatcher", dispV)]

/-- `LogRecord.heavy_init` (base.py lines 399-415): idempotent first, then
asserts `not late`, then captures pid, time and, if absent, the current
frame. -/
def heavy_init (env : Env) (r : PyDict) : Except PyErr PyDict :=
  if truthy (pyGetAttr r "heavy_initialized") then Except.ok r
  else if truthy (pyGetAttr r "late") then Except.error PyErr.assertHeavyLate
  else
    let r1 := pySet r "heavy_initialized" (Val.bool true)
    let r2 := pySet r1 "process" (Val.int env.pid)
    let r3 := pySet r2 "time" (Val.time env.now)
    match pyGetAttr r3 "frame" with
    | Val.none => Except.ok (pySet r3 "frame" (Val.frame env.curFrame))
    | _ => Except.ok r3

/-- `LogRecord.close` (base.py lines 431-440): null the frame-related
attributes and set `late`. -/
def close (r : PyDict) : PyDict :=
  pySet (nonedOnClose.foldl (fun acc k => pySet acc k Val.none) r)
    "late" (Val.bool true)

/-- `LogRecord.calling_frame` computed value (base.py lines 506-515): the
walk up the frame chain past the library's own globals is opaque frame
introspection (`Env.walkFrame`); a `None` frame yields `None`. -/
def compute_calling_frame (env : Env) (r : PyDict) : Val :=
  match pyGetAttr r "frame" with
  | Val.none => Val.none
  | f => env.walkFrame f

/-- Cached access to `calling_frame` (`cached_property.__get__`,
base.py lines 59-66): consult `__dict__` first, else compute and store. -/
def access_calling_frame (env : Env) (r : PyDict) : PyDict :=
  match pyGet r "calling_frame" with
  | some _ => r
  | Option.none => pySet r "calling_frame" (compute_calling_frame env r)

/-- The four derivations that read `calling_frame` (base.py lines 517-557):
each yields `None` when the calling frame is `None`, otherwise an opaque
projection of the frame. -/
def frame_prop_value (env : Env) (key : String) (cf : Val) : Val :=
  match cf with
  | Val.none => Val.none
  | _ =>
    match key with
    | "func_name" => env.funcNameOf cf
    | "module" => env.moduleOf cf
    | "filename" => env.filenameOf cf
    | _ => env.linenoOf cf

/-- The remaining pullable derivations (base.py lines 483-619): thread and
process identity are read from the interpreter; `message` formats
`msg`/`args`/`kwargs` (returns `msg` unchanged when both are empty); the
exception projections yield `None` when `exc_info` is `None`.  The format
engine is the opaque `Env.formatMsg`, modelling the non-raising runs. -/
def simple_prop_value (env : Env) (r : PyDict) (key : String) : Val :=
  match key with
  | "process_name" => env.processName
  | "thread" => env.threadIdent
  | "thread_name" => env.threadName
  | "message" =>
      if truthy (pyGetAttr r "args") || truthy (pyGetAttr r "kwargs") then
        env.formatMsg (pyGetAttr r "msg") (pyGetAttr r "args") (pyGetAttr r "kwargs")
      else pyGetAttr r "msg"
  | "formatted_exception" =>
      match pyGetAttr r "exc_info" with
      | Val.none => Val.none
      | e => env.formatException e
  | "exception_name" =>
      match pyGetAttr r "exc_info" with
      | Val.none => Val.none
      | e => env.excName e
  | "exception_message" =>
      match pyGetAttr r "exc_info" with
      | Val.none => Val.none
      | e => env.excMessage e
  | _ => Val.none

/-- The pullable derivations that go through `calling_frame`. -/
def frameKeys : List String := ["func_name", "module", "filename", "lineno"]

/-- One cached-property access during `pull_information`: a hit leaves the
dict alone; a miss computes the value (caching `calling_frame` on the way
for the frame-derived keys) and stores it. -/
def accessProp (env : Env) (r : PyDict) (key : String) : PyDict :=
  match pyGet r key with
  | some _ => r
  | Option.none =>
    if frameKeys.contains key then
      let r1 := access_calling_frame env r
      pySet r1 key (frame_prop_value env key (pyGetAttr r1 "calling_frame"))
    else
      pySet r key (simple_prop_value env r key)

/-- `LogRecord._pullable_information` (base.py lines 337-341).  The source
iterates a frozenset whose order is unspecified; the final dictionary
contents do not depend on the order, so a fixed order is used here. -/
def pullKeys : List String :=
  ["func_name", "module", "filename", "lineno", "process_name", "thread",
   "thread_name", "formatted_exception", "message", "exception_name",
   "exception_message"]

/-- `LogRecord.pull_information` (base.py lines 417-429): short-circuit on
`information_pulled`, force every pullable attribute into `__dict__`, then
set the flag. -/
def pull_information (env : Env) (r : PyDict) : PyDict :=
  if truthy (pyGetAttr r "information_pulled") then r
  else
    pySet (pullKeys.foldl (fun acc k => accessProp env acc k) r)
      "information_pulled" (Val.bool true)

/-- `LogRecord.to_dict` with the default `json_safe=False`
(base.py lines 445-459): pull, keep the non-private non-frame entries of
`__dict__`, and export `extra` as a plain dict.  `dict(rv['extra'])` on a
missing or non-mapping `extra` raises, modelled as `keyError`. -/
def to_dict (env : Env) (r : PyDict) : Except PyErr PyDict :=
  let r1 := pull_information env r
  let rv := r1.filter (fun kv => goodKey kv.1)
  match pyGet rv "extra" with
  | some (Val.dict es) => Except.ok (pySet rv "extra" (Val.dict es))
  | some (Val.extradict es) => Except.ok (pySet rv "extra" (Val.dict es))
  | _ => Except.error PyErr.keyError

/-- `LogRecord.update_from_dict` (base.py lines 470-481): `__dict__.update(d)`,
null the frame-related attributes, set the (misspelled, underscore-prefixed)
`_information_pulled` and `_channel` attributes, and parse a string `time`. -/
def update_from_dict (env : Env) (r : PyDict) (d : PyDict) : PyDict :=
  let r1 := pyUpdate r d
  let r2 := nonedOnClose.foldl (fun acc k => pySet acc k Val.none) r1
  let r3 := pySet r2 "_information_pulled" (Val.bool true)
  let r4 := pySet r3 "_channel" Val.none
  match pyGetAttr r4 "time" with
  | Val.timeStr t => pySet r4 "time" (Val.time (env.parseIso t))
  | _ => r4

/-- `LogRecord.from_dict` (base.py lines 461-468): a bare instance (empty
`__dict__`) updated from the exported dictionary. -/
def from_dict (env : Env) (d : PyDict) : PyDict :=
  update_from_dict env [] d

/-- The record lifecycle operations a dispatcher applies to a record. -/
inductive LifeOp : Type where
  | heavyOp
  | pullOp
  | closeOp
deriving DecidableEq

/-- Apply a sequence of lifecycle operations; a failed `heavy_init`
assertion aborts the run. -/
def applyLife (env : Env) : List LifeOp → PyDict → Option PyDict
  | [], r => some r
  | op :: ops, r =>
    match op with
    | LifeOp.heavyOp =>
      match heavy_init env r with
      | Except.ok r1 => applyLife env ops r1
      | Except.error _ => Option.none
    | LifeOp.pullOp => applyLife env ops (pull_information env r)
    | LifeOp.closeOp => applyLife env ops (close r)

/-- The handler contract the core consumes (spec §6.3, base.py line 799
onwards): minimum level, the `blackhole` and `bubble` flags, an optional
filter and the `handle` callback.  The source passes `(record, handler)`
to the filter; the handler argument is the receiver itself, so here it is
simply closed over.  Callbacks are modelled as total (non-raising)
functions, per the contract in spec §6.3. -/
structure Handler : Type where
  level : Int
  blackhole : Bool
  bubble : Bool
  filter : Option (PyDict → Bool)
  handle : PyDict → Bool

/-- `record.level` as an integer (records built by this model always carry
an integer level). -/
def record_level (r : PyDict) : Int :=
  match pyGetAttr r "level" with
  | Val.int n => n
  | _ => 0

/-- Observable outcome of one `call_handlers` traversal: the final record
state, the `record_initialized` flag, the `(position, record-state)` pairs
at which `handler.handle` was invoked, the position at which the loop
`break`-ed (if any), and a propagated exception (if any). -/
structure CHResult : Type where
  record : PyDict
  inited : Bool
  invoked : List (Nat × PyDict)
  brk : Option Nat
  err : Option PyErr

/-- Reindex a traversal outcome after skipping one handler. -/
def chShift (res : CHResult) : CHResult :=
  { res with invoked := res.invoked.map (fun q => (q.1 + 1, q.2)),
             brk := res.brk.map (· + 1) }

/-- The `call_handlers` loop body (base.py lines 799-826) over the
remaining handlers: skip on level, `break` on blackhole, one-shot
`heavy_init` + `process_record` (the processor chain is the opaque
`procFn`), skip on filter veto, and `break` when `handle` accepts a
non-bubbling record. -/
def call_handlers_aux (env : Env) (procFn : PyDict → PyDict) :
    List Handler → PyDict → Bool → CHResult
  | [], r, ri => ⟨r, ri, [], Option.none, Option.none⟩
  | h :: hs, r, ri =>
    if record_level r < h.level then
      chShift (call_handlers_aux env procFn hs r ri)
    else if h.blackhole then
      ⟨r, ri, [], some 0, Option.none⟩
    else
      match (if ri then Except.ok r else (heavy_init env r).map procFn) with
      | Except.error e => ⟨r, ri, [], Option.none, some e⟩
      | Except.ok r1 =>
        if (match h.filter with
            | some f => !(f r1)
            | Option.none => false) then
          chShift (call_handlers_aux env procFn hs r1 true)
        else if h.handle r1 && !h.bubble then
          ⟨r1, true, [(0, r1)], some 0, Option.none⟩
        else
          let res := chShift (call_handlers_aux env procFn hs r1 true)
          { res with invoked := (0, r1) :: res.invoked }

/-- `RecordDispatcher.call_handlers` (base.py lines 780-826): traverse the
dispatcher's own handlers followed by the context handlers, starting with
`record_initialized = False`. -/
def call_handlers (env : Env) (procFn : PyDict → PyDict)
    (dispHandlers ctxHandlers : List Handler) (record : PyDict) : CHResult :=
  call_handlers_aux env procFn (dispHandlers ++ ctxHandlers) record false

/-- `RecordDispatcher.process_record` (base.py lines 828-836): the group's
processor callback, then every context processor, in stack order. -/
def process_record (groupProcessor : Option (PyDict → PyDict))
    (processors : List (PyDict → PyDict)) (r : PyDict) : PyDict :=
  processors.foldl (fun acc p => p acc)
    (match groupProcessor with
     | some g => g r
     | Option.none => r)

/-- Outcome of `make_record_and_handle`: the record as created, its state
after the `finally` guard, and a propagated exception (if any). -/
structure MRHOut : Type where
  created : PyDict
  finalRec : PyDict
  err : Option PyErr

/-- `RecordDispatcher.make_record_and_handle` (base.py lines 764-778):
build the record (`channel = None` under `suppress_dispatcher`), run
`self.handle` — an arbitrary state transformer that may raise, covering
level gating, `call_handlers` and raising handlers — and in the `finally`
guard set `late` and close the record unless `keep_open` was set. -/
def make_record_and_handle (name : Val) (suppress : Bool) (selfRef : Val)
    (handleFn : PyDict → PyDict × Option PyErr)
    (level : Int) (msg args kwargs exc_info extra : Val) : MRHOut :=
  let channel := if suppress then Val.none else selfRef
  let record := LogRecord_init name (Val.int level) msg args kwargs exc_info
    extra Val.none channel
  let hr := handleFn record
  let r2 := pySet hr.1 "late" (Val.bool true)
  let r3 := if truthy (pyGetAttr r2 "keep_open") then r2 else close r2
  ⟨record, r3, hr.2⟩

/-- A logger's configuration: name, `suppress_dispatcher`, its own
reference, the effective (group-reflected) level, the `disabled` flag, its
attached handlers, the context handlers visible to the thread, and the
composed processor chain. -/
structure LoggerCfg : Type where
  name : Val
  suppress : Bool
  selfRef : Val
  levelEff : Int
  disabled : Bool
  handlers : List Handler
  ctxHandlers : List Handler
  procFn : PyDict → PyDict

/-- `RecordDispatcher.handle` (base.py lines 753-762): call the handlers
when not disabled and the record's level passes the dispatcher's. -/
def RecordDispatcher_handle (env : Env) (cfg : LoggerCfg) (r : PyDict) :
    PyDict × Option PyErr :=
  if !cfg.disabled && decide (cfg.levelEff ≤ record_level r) then
    let res := call_handlers env cfg.procFn cfg.handlers cfg.ctxHandlers r
    (res.record, res.err)
  else (r, Option.none)

/-- `make_record_and_handle` as invoked on a logger: `self.handle` is the
dispatcher's `handle`. -/
def Logger_make_record_and_handle (env : Env) (cfg : LoggerCfg) (level : Int)
    (msg args kwargs exc_info extra : Val) : MRHOut :=
  make_record_and_handle cfg.name cfg.suppress cfg.selfRef
    (RecordDispatcher_handle env cfg) level msg args kwargs exc_info extra

/-- Observable outcome of a logging call: the records created (as
constructed) and a propagated exception (if any). -/
structure LogOutcome : Type where
  created : List PyDict
  err : Option PyErr

/-- `LoggerMixin._log` (base.py lines 724-728): pop `exc_info` and `extra`
from the keyword arguments, then build and handle a record from
`args[0]` / `args[1:]` (an empty `args` raises `IndexError`). -/
def LoggerMixin_log (env : Env) (cfg : LoggerCfg) (level : Int)
    (args : List Val) (kwargs : PyDict) : LogOutcome :=
  let exc_info := (pyGet kwargs "exc_info").getD Val.none
  let kwargs1 := pyDel kwargs "exc_info"
  let extra := (pyGet kwargs1 "extra").getD Val.none
  let kwargs2 := pyDel kwargs1 "extra"
  match args with
  | [] => ⟨[], some PyErr.indexError⟩
  | m :: rest =>
    let out := Logger_make_record_and_handle env cfg level m (Val.tuple rest)
      (Val.dict kwargs2) exc_info extra
    ⟨[out.created], out.err⟩

/-- `LoggerMixin.error` (base.py lines 678-683): log at ERROR when
`ERROR >= self.level`. -/
def LoggerMixin_error (env : Env) (cfg : LoggerCfg) (args : List Val)
    (kwargs : PyDict) : LogOutcome :=
  if (5 : Int) ≥ cfg.levelEff then LoggerMixin_log env cfg 5 args kwargs
  else ⟨[], Option.none⟩

/-- `LoggerMixin.exception` (base.py lines 685-693): when `exc_info` is not
among the keyword arguments, read `sys.exc_info()` (here `currentExc`,
`none` when no failure is being handled), assert a failure exists, and
default the keyword; then delegate to `error`. -/
def LoggerMixin_exception (env : Env) (cfg : LoggerCfg)
    (currentExc : Option Val) (args : List Val) (kwargs : PyDict) : LogOutcome :=
  match pyGet kwargs "exc_info" with
  | some _ => LoggerMixin_error env cfg args kwargs
  | Option.none =>
    match currentExc with
    | Option.none => ⟨[], some PyErr.assertNoException⟩
    | some e => LoggerMixin_error env cfg args (pySet kwargs "exc_info" e)

/-- Observable outcome of a `with logger.catch_exceptions(...)` block whose
body raised: the records created, an exception propagated out of the
block, and whether the body's failure was swallowed. -/
structure CatchOutcome : Type where
  created : List PyDict
  raised : Option PyErr
  swallowed : Bool

/-- `LoggerMixin.catch_exceptions` + `_ExceptionCatcher.__exit__`
(base.py lines 131-147 and 695-704): default the message when no
positional arguments were given; on exit with a failure, copy the keyword
arguments, inject `exc_info` and call `logger.exception`; return `True`
(swallow).  `exc` is the failure raised by the body (`none` when it
completed normally). -/
def catchRun (env : Env) (cfg : LoggerCfg) (args0 : List Val)
    (kwargs0 : PyDict) (exc : Option Val) : CatchOutcome :=
  let args := if args0.isEmpty then [Val.str "Uncaught exception occurred"] else args0
  match exc with
  | Option.none => ⟨[], Option.none, true⟩
  | some e =>
    let kwargs := pySet kwargs0 "exc_info" e
    let out := LoggerMixin_exception env cfg (some e) args kwargs
    match out.err with
    | some er => ⟨out.created, some er, false⟩
    | Option.none => ⟨out.created, Option.none, true⟩

/-- `group_reflected_property`'s getter (base.py lines 81-97): a set local
value different from the sentinel wins; otherwise the group's value when a
group is attached; otherwise the default.  `localVal = none` is the absent
attribute; `fallbackSentinel = none` models the `_missing` fallback (so
any set value differs from it). -/
def group_reflected_get {α : Type} [DecidableEq α] (localVal : Option α)
    (fallbackSentinel : Option α) (defaultVal : α) (groupVal : Option α) : α :=
  match localVal with
  | some rv => if fallbackSentinel ≠ some rv then rv else groupVal.getD defaultVal
  | Option.none => groupVal.getD defaultVal

/-- The `LoggerGroup` state consulted by group-reflected properties
(base.py lines 855-881). -/
structure LoggerGroupS : Type where
  level : Int
  disabled : Bool

/-- A `RecordDispatcher`'s reflected-property state (base.py lines
740-751): the private `_level` / `_disabled` slots (absent = `none`) and
the owning group. -/
structure RD : Type where
  lvlSlot : Option Int
  disSlot : Option Bool
  group : Option LoggerGroupS

/-- `RecordDispatcher.level` getter: `group_reflected_property('level',
NOTSET, fallback=NOTSET)` with NOTSET = 0. -/
def RD.level_get (d : RD) : Int :=
  group_reflected_get d.lvlSlot (some 0) 0 (d.group.map LoggerGroupS.level)

/-- `RecordDispatcher.disabled` getter: `group_reflected_property(
'disabled', False)` with the `_missing` fallback. -/
def RD.disabled_get (d : RD) : Bool :=
  group_reflected_get d.disSlot Option.none false (d.group.map LoggerGroupS.disabled)

/-- The property's setter: store into the private slot. -/
def RD.level_set (d : RD) (v : Int) : RD := { d with lvlSlot := some v }

/-- The property's deleter: `delattr` (raises when the slot is absent). -/
def RD.level_del (d : RD) : Option RD :=
  match d.lvlSlot with
  | some _ => some { d with lvlSlot := Option.none }
  | Option.none => Option.none

/-- `RecordDispatcher.__init__`: `self.level = level` stores into the
slot; no group; `_disabled` never initialised. -/
def RD.init (level : Int) : RD := ⟨some level, Option.none, Option.none⟩

/-- `_MAX_CONTEXT_OBJECT_CACHE` (base.py line 35). -/
def _MAX_CONTEXT_OBJECT_CACHE : Nat := 256

/-- The per-class registry of a concrete `ContextObject` class
(base.py lines 150-180): the shared sequence counter, the application
stack, the per-thread stacks and the per-thread iteration cache.  Context
objects are identified by opaque ids. -/
structure RegState : Type where
  counter : Nat
  appStack : List (Nat × Nat)
  threadStacks : Nat → List (Nat × Nat)
  cache : List (Nat × List Nat)

/-- Lookup in the iteration cache (`cls._co_cache.get(tid)`). -/
def cacheLookup : List (Nat × List Nat) → Nat → Option (List Nat)
  | [], _ => Option.none
  | (t, objs) :: rest, tid => if t = tid then some objs else cacheLookup rest tid

/-- `cls._co_cache.pop(tid, None)`. -/
def cacheErase (c : List (Nat × List Nat)) (tid : Nat) : List (Nat × List Nat) :=
  c.filter (fun e => !(e.1 == tid))

/-- Insert a pair into a list sorted by strictly-or-equal decreasing first
component. -/
def insertDesc (p : Nat × Nat) : List (Nat × Nat) → List (Nat × Nat)
  | [] => [p]
  | q :: rest => if q.1 ≤ p.1 then p :: q :: rest else q :: insertDesc p rest

/-- `objects.sort(reverse=True)`: sort descending by sequence number.
Sequence numbers are pairwise distinct in every reachable state, so the
tuple comparison of the source never consults the object component. -/
def sortDesc : List (Nat × Nat) → List (Nat × Nat)
  | [] => []
  | p :: rest => insertDesc p (sortDesc rest)

/-- The freshly-built iteration list for a thread (base.py lines 175-178):
application stack, then the thread's stack, sorted in reverse, projected
to the objects. -/
def fresh (s : RegState) (tid : Nat) : List Nat :=
  (sortDesc (s.appStack ++ s.threadStacks tid)).map Prod.snd

/-- `_ContextObjectType.iter_context_objects` (base.py lines 166-180):
serve from the cache; on a miss clear the cache when it exceeds the cap,
rebuild, and cache the result. -/
def iter_context_objects (s : RegState) (tid : Nat) : List Nat × RegState :=
  match cacheLookup s.cache tid with
  | some objs => (objs, s)
  | Option.none =>
    let c1 := if s.cache.length > _MAX_CONTEXT_OBJECT_CACHE then [] else s.cache
    let objs := fresh s tid
    (objs, { s with cache := (tid, objs) :: c1 })

/-- `ContextObject.push_thread` (base.py lines 240-249): invalidate the
thread's cache entry, stamp the object with the next sequence number and
append it to the thread's stack. -/
def push_thread (s : RegState) (tid obj : Nat) : RegState :=
  { s with
    cache := cacheErase s.cache tid,
    threadStacks := fun t =>
      if t = tid then s.threadStacks tid ++ [(s.counter, obj)] else s.threadStacks t,
    counter := s.counter + 1 }

/-- `ContextObject.push_application` (base.py lines 260-263): append to
the application stack and clear the whole cache. -/
def push_application (s : RegState) (obj : Nat) : RegState :=
  { s with
    appStack := s.appStack ++ [(s.counter, obj)],
    counter := s.counter + 1,
    cache := [] }

/-- `ContextObject.pop_thread` (base.py lines 251-258): invalidate the
cache entry, pop the top and assert it is the expected object (`none` on
an assertion failure). -/
def pop_thread (s : RegState) (tid obj : Nat) : Option RegState :=
  let c1 := cacheErase s.cache tid
  match (s.threadStacks tid).getLast? with
  | Option.none => Option.none
  | some top =>
    if top.2 = obj then
      some { s with
        cache := c1,
        threadStacks := fun t =>
          if t = tid then (s.threadStacks tid).dropLast else s.threadStacks t }
    else Option.none

/-- `ContextObject.pop_application` (base.py lines 265-270). -/
def pop_application (s : RegState) (obj : Nat) : Option RegState :=
  match s.appStack.getLast? with
  | Option.none => Option.none
  | some top =>
    if top.2 = obj then
      some { s with appStack := s.appStack.dropLast, cache := [] }
    else Option.none

/-- The registry operations. -/
inductive RegOp : Type where
  | pushT (tid obj : Nat)
  | pushA (obj : Nat)
  | popT (tid obj : Nat)
  | popA (obj : Nat)
  | iterOp (tid : Nat)

/-- One registry operation (`none` = a pop assertion failed). -/
def regStep (s : RegState) : RegOp → Option RegState
  | RegOp.pushT tid obj => some (push_thread s tid obj)
  | RegOp.pushA obj => some (push_application s obj)
  | RegOp.popT tid obj => pop_thread s tid obj
  | RegOp.popA obj => pop_application s obj
  | RegOp.iterOp tid => some (iter_context_objects s tid).2

/-- Run a sequence of registry operations. -/
def regRun : List RegOp → RegState → Option RegState
  | [], s => some s
  | op :: ops, s =>
    match regStep s op with
    | some s1 => regRun ops s1
    | Option.none => Option.none

/-- A fresh class registry: `count()` starts at 0, all stacks and the
cache empty. -/
def regInit : RegState := ⟨0, [], fun _ => [], []⟩

/-- The registry invariant: every stamped sequence number is below the
counter, the sequence numbers visible to any one thread are pairwise
distinct, every cache entry agrees with a fresh rebuild, and the cache
never exceeds the cap by more than the one entry inserted at the cap. -/
structure RegInv (s : RegState) : Prop where
  appBound : ∀ p ∈ s.appStack, p.1 < s.counter
  thBound : ∀ tid, ∀ p ∈ s.threadStacks tid, p.1 < s.counter
  ndk : ∀ tid, ((s.appStack ++ s.threadStacks tid).map Prod.fst).Nodup
  cacheOK : ∀ tid objs, cacheLookup s.cache tid = some objs → objs = fresh s tid
  cacheLen : s.cache.length ≤ _MAX_CONTEXT_OBJECT_CACHE + 1

/-- The keys of an instance dictionary are pairwise distinct (true of every
real `__dict__`, and preserved by every operation of the model). -/
def keysND (l : PyDict) : Prop := (l.map Prod.fst).Nodup

/-- The record well-formedness facts the serialisation proof needs, true
of every record reachable through the constructor and lifecycle: distinct
keys, `extra` holds an `ExtraDict`, and `time` is never a string. -/
def Rwf (r : PyDict) : Prop :=
  keysND r ∧ (∃ es, pyGet r "extra" = some (Val.extradict es)) ∧
    ∀ t, pyGet r "time" ≠ some (Val.timeStr t)

/-- Shape of a dictionary exported by `to_dict`: only public non-frame
keys, pairwise distinct, a truthy `information_pulled`, a plain-dict
`extra`, and a non-string `time`. -/
def GoodDict (d : PyDict) : Prop :=
  (∀ kv ∈ d, goodKey kv.1 = true) ∧ keysND d ∧
    (∃ v, pyGet d "information_pulled" = some v ∧ truthy v = true) ∧
    (∃ es, pyGet d "extra" = some (Val.dict es)) ∧
    ∀ t, pyGet d "time" ≠ some (Val.timeStr t)

/-- A concrete interpreter environment for witnesses and counterexamples. -/
def envTest : Env where
  pid := 7
  now := 3
  curFrame := 1
  walkFrame := fun _ => Val.frame 2
  funcNameOf := fun _ => Val.str "f"
  moduleOf := fun _ => Val.str "m"
  filenameOf := fun _ => Val.str "x.py"
  linenoOf := fun _ => Val.int 10
  threadIdent := Val.int 11
  threadName := Val.str "main"
  processName := Val.str "proc"
  formatMsg := fun m _ _ => m
  formatException := fun _ => Val.str "tb"
  excName := fun _ => Val.str "T"
  excMessage := fun _ => Val.str "v"
  parseIso := fun t => t

/-- A blackhole handler whose level the record does not reach. -/
def c1h0 : Handler := ⟨10, true, true, Option.none, fun _ => true⟩

/-- A plain accepting handler at level 0. -/
def c1h1 : Handler := ⟨0, false, true, Option.none, fun _ => true⟩

/-- A level-5 record fresh from the constructor. -/
def c1rec : PyDict :=
  LogRecord_init (Val.str "app") (Val.int 5) (Val.str "msg") Val.none Val.none
    Val.none Val.none Val.none Val.none

/-- An admitted blackhole handler for the C1 witness. -/
def c1wh : Handler := ⟨2, true, true, Option.none, fun _ => true⟩

/-- A level-admitted blackhole handler that bubbles. -/
def c2h0 : Handler := ⟨0, true, true, Option.none, fun _ => false⟩

/-- A downstream handler for the C2 counterexample. -/
def c2h1 : Handler := ⟨0, false, true, Option.none, fun _ => true⟩

/-- A level-1 record fresh from the constructor. -/
def c2rec : PyDict :=
  LogRecord_init (Val.str "app") (Val.int 1) (Val.str "msg") Val.none Val.none
    Val.none Val.none Val.none Val.none

/-- A non-bubbling accepting handler for the C2 witness. -/
def c2wh : Handler := ⟨0, false, false, Option.none, fun _ => true⟩

/-- The record state at which the C2 witness handler is invoked. -/
def c2wr1 : PyDict := (call_handlers envTest (fun r => r) [c2wh] [] c2rec).record

/-- A record constructed with every kind of payload, for the C4 witness. -/
def c4rec0 : PyDict :=
  LogRecord_init (Val.str "chan") (Val.int 2) (Val.str "hello {n}") (Val.tuple [])
    (Val.dict [("n", Val.int 4)]) (Val.ref 9)
    (Val.dict [("ip", Val.str "127.0.0.1")]) Val.none (Val.ref 3)

/-- Lifecycle of the C4 witness record: heavy-init then pull. -/
def c4ops : List LifeOp := [LifeOp.heavyOp, LifeOp.pullOp]

/-- A handle step that raises, for the C6 witness. -/
def c6handleFn : PyDict → PyDict × Option PyErr :=
  fun r => (r, some PyErr.indexError)

/-- 257 cache misses from 257 distinct threads. -/
def c7ops : List RegOp := (List.range 257).map RegOp.iterOp

/-- A logger at effective level 0 with no handlers, used by witnesses. -/
def cfgTest : LoggerCfg :=
  ⟨Val.str "lg", false, Val.ref 1, 0, false, [], [], fun r => r⟩

/-- A logger whose effective level 6 (CRITICAL) rejects ERROR records. -/
def cfg6 : LoggerCfg :=
  ⟨Val.str "lg", false, Val.ref 1, 6, false, [], [], fun r => r⟩

/-- The failure value raised inside the catch blocks of the examples. -/
def excE : Val := Val.tuple [Val.ref 5, Val.ref 6, Val.ref 7]

/-- Keyword arguments that explicitly carry `exc_info`. -/
def kw10 : PyDict := [("exc_info", Val.ref 8)]

/-- The registry state after an application push, a thread push and one
iteration: counter 2, object 10 on the application stack with sequence 0,
object 20 on thread 0's stack with sequence 1, and the iteration cached. -/
def c3state : RegState :=
  ⟨2, [(0, 10)], fun t => if t = 0 then [(1, 20)] else [], [(0, [20, 10])]⟩

/-- The registry state after a single cache-missing iteration. -/
def c7wstate : RegState := ⟨0, [], fun _ => [], [(0, [])]⟩

/-! ### Dictionary algebra -/

theorem pyGet_pySet_self (l : PyDict) (k : String) (v : Val) :
    pyGet (pySet l k v) k = some v := by
  induction l with
  | nil => simp [pySet, pyGet]
  | cons kv rest ih =>
    obtain ⟨k1, v1⟩ := kv
    by_cases h : k1 = k
    · simp [pySet, pyGet, h]
    · simp [pySet, pyGet, h, ih]

theorem pyGet_pySet_ne (l : PyDict) (k k2 : String) (v : Val) (h : k2 ≠ k) :
    pyGet (pySet l k v) k2 = pyGet l k2 := by
  induction l with
  | nil => simp [pySet, pyGet, Ne.symm h]
  | cons kv rest ih =>
    obtain ⟨k1, v1⟩ := kv
    by_cases h1 : k1 = k
    · subst h1
      simp [pySet, pyGet, Ne.symm h]
    · simp [pySet, pyGet, h1, ih]

theorem pySet_not_mem (l : PyDict) (k : String) (v : Val)
    (h : pyGet l k = Option.none) : pySet l k v = l ++ [(k, v)] := by
  induction l with
  | nil => simp [pySet]
  | cons kv rest ih =>
    obtain ⟨k1, v1⟩ := kv
    by_cases h1 : k1 = k
    · simp [pyGet, h1] at h
    · simp only [pyGet, h1, if_neg h1] at h
      simp [pySet, h1, ih h]

theorem pySet_get_same (l : PyDict) (k : String) (v : Val)
    (h : pyGet l k = some v) : pySet l k v = l := by
  induction l with
  | nil => simp [pyGet] at h
  | cons kv rest ih =>
    obtain ⟨k1, v1⟩ := kv
    by_cases h1 : k1 = k
    · subst h1
      simp [pyGet] at h
      subst h
      simp [pySet]
    · simp only [pyGet, if_neg h1] at h
      simp [pySet, h1, ih h]

theorem pyGet_append (l m : PyDict) (k : String) :
    pyGet (l ++ m) k =
      match pyGet l k with
      | some v => some v
      | Option.none => pyGet m k := by
  induction l with
  | nil => rfl
  | cons kv rest ih =>
    obtain ⟨k1, v1⟩ := kv
    by_cases h1 : k1 = k
    · simp [pyGet, h1]
    · simp [pyGet, h1, ih]

theorem pyGet_some_mem (l : PyDict) (k : String) (v : Val)
    (h : pyGet l k = some v) : (k, v) ∈ l := by
  induction l with
  | nil => simp [pyGet] at h
  | cons kv rest ih =>
    obtain ⟨k1, v1⟩ := kv
    by_cases h1 : k1 = k
    · subst h1
      simp [pyGet] at h
      subst h
      exact List.mem_cons_self _ _
    · simp only [pyGet, if_neg h1] at h
      exact List.mem_cons_of_mem _ (ih h)

theorem mem_pySet (l : PyDict) (k : String) (v : Val) (kv : String × Val)
    (h : kv ∈ pySet l k v) : kv ∈ l ∨ kv = (k, v) := by
  induction l with
  | nil =>
    simp [pySet] at h
    exact Or.inr h
  | cons kv1 rest ih =>
    obtain ⟨k1, v1⟩ := kv1
    by_cases h1 : k1 = k
    · simp only [pySet, if_pos h1] at h
      rcases List.mem_cons.mp h with h2 | h2
      · exact Or.inr h2
      · exact Or.inl (List.mem_cons_of_mem _ h2)
    · simp only [pySet, if_neg h1] at h
      rcases List.mem_cons.mp h with h2 | h2
      · exact Or.inl (h2 ▸ List.mem_cons_self _ _)
      · rcases ih h2 with h3 | h3
        · exact Or.inl (List.mem_cons_of_mem _ h3)
        · exact Or.inr h3

theorem keys_pySet_sub (l : PyDict) (k : String) (v : Val) (a : String)
    (h : a ∈ (pySet l k v).map Prod.fst) : a ∈ l.map Prod.fst ∨ a = k := by
  rcases List.mem_map.mp h with ⟨kv, hkv, hfst⟩
  rcases mem_pySet l k v kv hkv with h1 | h1
  · exact Or.inl (hfst ▸ List.mem_map_of_mem Prod.fst h1)
  · subst h1
    exact Or.inr hfst.symm

theorem keysND_pySet (l : PyDict) (k : String) (v : Val) (h : keysND l) :
    keysND (pySet l k v) := by
  induction l with
  | nil =>
    simp [keysND, pySet]
  | cons kv rest ih =>
    obtain ⟨k1, v1⟩ := kv
    have hnd : keysND rest := (List.nodup_cons.mp h).2
    have hni : k1 ∉ rest.map Prod.fst := (List.nodup_cons.mp h).1
    by_cases h1 : k1 = k
    · subst h1
      simpa [keysND, pySet] using h
    · have he : pySet ((k1, v1) :: rest) k v = (k1, v1) :: pySet rest k v := by
        simp [pySet, h1]
      rw [keysND, he, List.map_cons]
      refine List.nodup_cons.mpr ⟨?_, ih hnd⟩
      intro hmem
      rcases keys_pySet_sub rest k v k1 hmem with h2 | h2
      · exact hni h2
      · exact h1 h2

theorem pyUpdate_disjoint (d : PyDict) : ∀ acc : PyDict,
    (∀ kv ∈ d, pyGet acc kv.1 = Option.none) → keysND d →
    pyUpdate acc d = acc ++ d := by
  induction d with
  | nil =>
    intro acc _ _
    simp [pyUpdate]
  | cons kv d ih =>
    intro acc hdis hnd
    obtain ⟨k, v⟩ := kv
    have h1 : pySet acc k v = acc ++ [(k, v)] :=
      pySet_not_mem _ _ _ (hdis _ (List.mem_cons_self _ _))
    have hnd2 : keysND d := (List.nodup_cons.mp hnd).2
    have hk : k ∉ d.map Prod.fst := (List.nodup_cons.mp hnd).1
    have hstep : pyUpdate acc ((k, v) :: d) = pyUpdate (pySet acc k v) d := rfl
    rw [hstep, h1, ih (acc ++ [(k, v)]) ?_ hnd2]
    · simp
    · intro kv2 hkv2
      rw [pyGet_append]
      rw [hdis _ (List.mem_cons_of_mem _ hkv2)]
      have : k ≠ kv2.1 := by
        intro e
        exact hk (e ▸ List.mem_map_of_mem Prod.fst hkv2)
      simp [pyGet, this]

theorem pyUpdate_nil (d : PyDict) (h : keysND d) : pyUpdate [] d = d := by
  have := pyUpdate_disjoint d [] (fun kv _ => rfl) h
  simpa using this

theorem pyGet_filter_good (l : PyDict) (k : String) (hk : goodKey k = true) :
    pyGet (l.filter fun kv => goodKey kv.1) k = pyGet l k := by
  induction l with
  | nil => rfl
  | cons kv rest ih =>
    obtain ⟨k1, v1⟩ := kv
    by_cases hg : goodKey k1 = true
    · by_cases h1 : k1 = k
      · subst h1
        simp [List.filter_cons, hg, pyGet]
      · simp [List.filter_cons, hg, pyGet, h1, ih]
    · have h1 : k1 ≠ k := fun e => hg (e ▸ hk)
      simp [List.filter_cons, hg, pyGet, h1, ih]

theorem filter_good_all (l : PyDict) :
    ∀ kv ∈ (l.filter fun kv => goodKey kv.1), goodKey kv.1 = true := by
  intro kv h
  exact (List.mem_filter.mp h).2

theorem keysND_filter (l : PyDict) (h : keysND l) :
    keysND (l.filter fun kv => goodKey kv.1) := by
  have hs : List.Sublist ((l.filter fun kv => goodKey kv.1).map Prod.fst)
      (l.map Prod.fst) := (List.filter_sublist l).map Prod.fst
  exact h.sublist hs

theorem pyGet_none_of_good (d : PyDict) (k : String)
    (hall : ∀ kv ∈ d, goodKey kv.1 = true) (hbad : goodKey k = false) :
    pyGet d k = Option.none := by
  cases hg : pyGet d k with
  | none => rfl
  | some v =>
    have := hall _ (pyGet_some_mem d k v hg)
    simp only at this
    rw [this] at hbad
    exact absurd hbad (by simp)

/-! ### Pull-information and lifecycle stability -/

theorem pyGet_accessProp_ne (env : Env) (r : PyDict) (key k : String)
    (h1 : k ≠ key) (h2 : k ≠ "calling_frame") :
    pyGet (accessProp env r key) k = pyGet r k := by
  unfold accessProp
  cases hg : pyGet r key with
  | some v => rfl
  | none =>
    by_cases hf : frameKeys.contains key = true
    · simp only [hf, if_true]
      rw [pyGet_pySet_ne _ _ _ _ h1]
      unfold access_calling_frame
      cases hc : pyGet r "calling_frame" with
      | some v => rfl
      | none => exact pyGet_pySet_ne _ _ _ _ h2
    · simp only [hf, if_false, Bool.false_eq_true]
      exact pyGet_pySet_ne _ _ _ _ h1

theorem keysND_accessProp (env : Env) (r : PyDict) (key : String)
    (h : keysND r) : keysND (accessProp env r key) := by
  unfold accessProp
  cases hg : pyGet r key with
  | some v => exact h
  | none =>
    by_cases hf : frameKeys.contains key = true
    · simp only [hf, if_true]
      refine keysND_pySet _ _ _ ?_
      unfold access_calling_frame
      cases hc : pyGet r "calling_frame" with
      | some v => exact h
      | none => exact keysND_pySet _ _ _ h
    · simp only [hf, if_false, Bool.false_eq_true]
      exact keysND_pySet _ _ _ h

theorem pyGet_accessFold_ne (env : Env) (ks : List String) :
    ∀ (r : PyDict) (k : String), ¬ k ∈ ks → k ≠ "calling_frame" →
      pyGet (ks.foldl (fun acc kk => accessProp env acc kk) r) k = pyGet r k := by
  induction ks with
  | nil =>
    intro r k _ _
    rfl
  | cons a ks ih =>
    intro r k hk hc
    have hka : k ≠ a := fun e => hk (e ▸ List.mem_cons_self _ _)
    have hstep : ((a :: ks).foldl (fun acc kk => accessProp env acc kk) r) =
        ks.foldl (fun acc kk => accessProp env acc kk) (accessProp env r a) := rfl
    rw [hstep, ih _ k (fun hm => hk (List.mem_cons_of_mem _ hm)) hc]
    exact pyGet_accessProp_ne env r a k hka hc

theorem keysND_accessFold (env : Env) (ks : List String) :
    ∀ r : PyDict, keysND r →
      keysND (ks.foldl (fun acc kk => accessProp env acc kk) r) := by
  induction ks with
  | nil =>
    intro r h
    exact h
  | cons a ks ih =>
    intro r h
    exact ih _ (keysND_accessProp env r a h)

theorem keysND_pull (env : Env) (r : PyDict) (h : keysND r) :
    keysND (pull_information env r) := by
  unfold pull_information
  split
  · exact h
  · exact keysND_pySet _ _ _ (keysND_accessFold env pullKeys r h)

theorem truthy_attr_some (r : PyDict) (k : String)
    (hd : truthy (classDefault k) = false)
    (h : truthy (pyGetAttr r k) = true) :
    ∃ v, pyGet r k = some v ∧ truthy v = true := by
  cases hg : pyGet r k with
  | none =>
    rw [pyGetAttr, hg] at h
    rw [h] at hd
    exact absurd hd (by simp)
  | some v =>
    rw [pyGetAttr, hg] at h
    exact ⟨v, rfl, h⟩

theorem pull_info_pulled (env : Env) (r : PyDict) :
    ∃ v, pyGet (pull_information env r) "information_pulled" = some v ∧
      truthy v = true := by
  unfold pull_information
  split
  next hcond => exact truthy_attr_some r "information_pulled" rfl hcond
  next => exact ⟨Val.bool true, pyGet_pySet_self _ _ _, rfl⟩

theorem pyGet_pull_ne (env : Env) (r : PyDict) (k : String)
    (h1 : ¬ k ∈ pullKeys) (h2 : k ≠ "calling_frame")
    (h3 : k ≠ "information_pulled") :
    pyGet (pull_information env r) k = pyGet r k := by
  unfold pull_information
  split
  · rfl
  · rw [pyGet_pySet_ne _ _ _ _ h3]
    exact pyGet_accessFold_ne env pullKeys r k h1 h2

theorem close_eq (r : PyDict) :
    close r = pySet (pySet (pySet (pySet r "exc_info" Val.none) "frame" Val.none)
      "calling_frame" Val.none) "late" (Val.bool true) := rfl

theorem rwf_init (ch lv ms ar kw ex xt fr dp : Val) :
    Rwf (LogRecord_init ch lv ms ar kw ex xt fr dp) := by
  refine ⟨?_, ⟨_, rfl⟩, ?_⟩
  · rw [keysND]
    have he : (LogRecord_init ch lv ms ar kw ex xt fr dp).map Prod.fst =
        ["channel", "msg", "args", "kwargs", "level", "exc_info", "extra",
         "frame", "process", "_dispatcher"] := rfl
    rw [he]
    decide
  · intro t h
    rw [show pyGet (LogRecord_init ch lv ms ar kw ex xt fr dp) "time" =
      Option.none from rfl] at h
    cases h

theorem rwf_heavy (env : Env) (r r2 : PyDict) (hw : Rwf r)
    (h : heavy_init env r = Except.ok r2) : Rwf r2 := by
  obtain ⟨hnd, ⟨es, hex⟩, htm⟩ := hw
  have hnd3 : keysND (pySet (pySet (pySet r "heavy_initialized" (Val.bool true))
      "process" (Val.int env.pid)) "time" (Val.time env.now)) :=
    keysND_pySet _ _ _ (keysND_pySet _ _ _ (keysND_pySet _ _ _ hnd))
  have hex3 : pyGet (pySet (pySet (pySet r "heavy_initialized" (Val.bool true))
      "process" (Val.int env.pid)) "time" (Val.time env.now)) "extra" =
      some (Val.extradict es) := by
    rw [pyGet_pySet_ne _ _ _ _ (by decide), pyGet_pySet_ne _ _ _ _ (by decide),
      pyGet_pySet_ne _ _ _ _ (by decide)]
    exact hex
  have htm3 : pyGet (pySet (pySet (pySet r "heavy_initialized" (Val.bool true))
      "process" (Val.int env.pid)) "time" (Val.time env.now)) "time" =
      some (Val.time env.now) := pyGet_pySet_self _ _ _
  simp only [heavy_init] at h
  split at h
  · injection h with h
    subst h
    exact ⟨hnd, ⟨es, hex⟩, htm⟩
  · split at h
    · cases h
    · split at h
      · injection h with h
        subst h
        refine ⟨keysND_pySet _ _ _ hnd3, ⟨es, ?_⟩, ?_⟩
        · rw [pyGet_pySet_ne _ _ _ _ (by decide)]
          exact hex3
        · intro t ht
          rw [pyGet_pySet_ne _ _ _ _ (by decide), htm3] at ht
          cases ht
      · injection h with h
        subst h
        refine ⟨hnd3, ⟨es, hex3⟩, ?_⟩
        intro t ht
        rw [htm3] at ht
        cases ht

theorem rwf_pull (env : Env) (r : PyDict) (hw : Rwf r) :
    Rwf (pull_information env r) := by
  obtain ⟨hnd, ⟨es, hex⟩, htm⟩ := hw
  refine ⟨keysND_pull env r hnd, ⟨es, ?_⟩, ?_⟩
  · rw [pyGet_pull_ne env r "extra" (by decide) (by decide) (by decide)]
    exact hex
  · intro t ht
    rw [pyGet_pull_ne env r "time" (by decide) (by decide) (by decide)] at ht
    exact htm t ht

theorem rwf_close (r : PyDict) (hw : Rwf r) : Rwf (close r) := by
  obtain ⟨hnd, ⟨es, hex⟩, htm⟩ := hw
  rw [close_eq]
  refine ⟨keysND_pySet _ _ _ (keysND_pySet _ _ _ (keysND_pySet _ _ _
    (keysND_pySet _ _ _ hnd))), ⟨es, ?_⟩, ?_⟩
  · rw [pyGet_pySet_ne _ _ _ _ (by decide), pyGet_pySet_ne _ _ _ _ (by decide),
      pyGet_pySet_ne _ _ _ _ (by decide), pyGet_pySet_ne _ _ _ _ (by decide)]
    exact hex
  · intro t ht
    rw [pyGet_pySet_ne _ _ _ _ (by decide), pyGet_pySet_ne _ _ _ _ (by decide),
      pyGet_pySet_ne _ _ _ _ (by decide), pyGet_pySet_ne _ _ _ _ (by decide)] at ht
    exact htm t ht

theorem rwf_applyLife (env : Env) (ops : List LifeOp) :
    ∀ r r2 : PyDict, Rwf r → applyLife env ops r = some r2 → Rwf r2 := by
  induction ops with
  | nil =>
    intro r r2 hw h
    cases h
    exact hw
  | cons op ops ih =>
    intro r r2 hw h
    cases op with
    | heavyOp =>
      simp only [applyLife] at h
      split at h
      · rename_i r1 hh
        exact ih r1 r2 (rwf_heavy env r r1 hw hh) h
      · cases h
    | pullOp =>
      simp only [applyLife] at h
      exact ih _ r2 (rwf_pull env r hw) h
    | closeOp =>
      simp only [applyLife] at h
      exact ih _ r2 (rwf_close r hw) h

/-! ### Serialisation round trip -/

theorem pyGet_append_tail (d t : PyDict) (k : String)
    (h : pyGet d k = Option.none) : pyGet (d ++ t) k = pyGet t k := by
  rw [pyGet_append, h]

theorem toDict_good (env : Env) (r d : PyDict) (hw : Rwf r)
    (h : to_dict env r = Except.ok d) : GoodDict d := by
  obtain ⟨hnd, ⟨es0, hex0⟩, htm0⟩ := hw
  have hndp : keysND (pull_information env r) := keysND_pull env r hnd
  have hexp : pyGet (pull_information env r) "extra" = some (Val.extradict es0) := by
    rw [pyGet_pull_ne env r "extra" (by decide) (by decide) (by decide)]
    exact hex0
  have htmp : ∀ t, pyGet (pull_information env r) "time" ≠ some (Val.timeStr t) := by
    intro t ht
    rw [pyGet_pull_ne env r "time" (by decide) (by decide) (by decide)] at ht
    exact htm0 t ht
  obtain ⟨ipv, hipv, hipt⟩ := pull_info_pulled env r
  have hexf : pyGet ((pull_information env r).filter fun kv => goodKey kv.1) "extra" =
      some (Val.extradict es0) := by
    rw [pyGet_filter_good _ _ (by decide)]
    exact hexp
  have hto : to_dict env r = Except.ok
      (pySet ((pull_information env r).filter fun kv => goodKey kv.1) "extra"
        (Val.dict es0)) := by
    simp only [to_dict]
    rw [hexf]
  rw [hto] at h
  injection h with h
  subst h
  refine ⟨?_, keysND_pySet _ _ _ (keysND_filter _ hndp), ⟨ipv, ?_, hipt⟩,
    ⟨es0, pyGet_pySet_self _ _ _⟩, ?_⟩
  · intro kv hkv
    rcases mem_pySet _ _ _ _ hkv with h1 | h1
    · exact filter_good_all _ _ h1
    · subst h1
      show goodKey "extra" = true
      decide
  · rw [pyGet_pySet_ne _ _ _ _ (by decide), pyGet_filter_good _ _ (by decide)]
    exact hipv
  · intro t ht
    rw [pyGet_pySet_ne _ _ _ _ (by decide), pyGet_filter_good _ _ (by decide)] at ht
    exact htmp t ht

theorem from_dict_good (env : Env) (d : PyDict) (hg : GoodDict d) :
    from_dict env d = d ++ [("exc_info", Val.none), ("frame", Val.none),
      ("calling_frame", Val.none), ("_information_pulled", Val.bool true),
      ("_channel", Val.none)] := by
  obtain ⟨hall, hnd, _, _, htm⟩ := hg
  have hei : pyGet d "exc_info" = Option.none := pyGet_none_of_good d _ hall (by decide)
  have hfr : pyGet d "frame" = Option.none := pyGet_none_of_good d _ hall (by decide)
  have hcf : pyGet d "calling_frame" = Option.none :=
    pyGet_none_of_good d _ hall (by decide)
  have hip2 : pyGet d "_information_pulled" = Option.none :=
    pyGet_none_of_good d _ hall (by decide)
  have hch : pyGet d "_channel" = Option.none := pyGet_none_of_good d _ hall (by decide)
  have s1 : pySet d "exc_info" Val.none = d ++ [("exc_info", Val.none)] :=
    pySet_not_mem _ _ _ hei
  have s2 : pySet (d ++ [("exc_info", Val.none)]) "frame" Val.none =
      (d ++ [("exc_info", Val.none)]) ++ [("frame", Val.none)] :=
    pySet_not_mem _ _ _ ((pyGet_append_tail d _ _ hfr).trans rfl)
  have g3 : pyGet ((d ++ [("exc_info", Val.none)]) ++ [("frame", Val.none)])
      "calling_frame" = Option.none :=
    (pyGet_append_tail (d ++ [("exc_info", Val.none)]) [("frame", Val.none)]
      "calling_frame" ((pyGet_append_tail d [("exc_info", Val.none)]
        "calling_frame" hcf).trans rfl)).trans rfl
  have s3 : pySet ((d ++ [("exc_info", Val.none)]) ++ [("frame", Val.none)])
      "calling_frame" Val.none =
      ((d ++ [("exc_info", Val.none)]) ++ [("frame", Val.none)]) ++
        [("calling_frame", Val.none)] :=
    pySet_not_mem _ _ _ g3
  have g4 : pyGet (((d ++ [("exc_info", Val.none)]) ++ [("frame", Val.none)]) ++
      [("calling_frame", Val.none)]) "_information_pulled" = Option.none :=
    (pyGet_append_tail ((d ++ [("exc_info", Val.none)]) ++ [("frame", Val.none)])
      [("calling_frame", Val.none)] "_information_pulled"
      ((pyGet_append_tail (d ++ [("exc_info", Val.none)]) [("frame", Val.none)]
        "_information_pulled" ((pyGet_append_tail d [("exc_info", Val.none)]
          "_information_pulled" hip2).trans rfl)).trans rfl)).trans rfl
  have s4 : pySet (((d ++ [("exc_info", Val.none)]) ++ [("frame", Val.none)]) ++
        [("calling_frame", Val.none)]) "_information_pulled" (Val.bool true) =
      (((d ++ [("exc_info", Val.none)]) ++ [("frame", Val.none)]) ++
        [("calling_frame", Val.none)]) ++ [("_information_pulled", Val.bool true)] :=
    pySet_not_mem _ _ _ g4
  have g5 : pyGet ((((d ++ [("exc_info", Val.none)]) ++ [("frame", Val.none)]) ++
      [("calling_frame", Val.none)]) ++ [("_information_pulled", Val.bool true)])
      "_channel" = Option.none :=
    (pyGet_append_tail (((d ++ [("exc_info", Val.none)]) ++ [("frame", Val.none)]) ++
      [("calling_frame", Val.none)]) [("_information_pulled", Val.bool true)]
      "_channel" ((pyGet_append_tail ((d ++ [("exc_info", Val.none)]) ++
        [("frame", Val.none)]) [("calling_frame", Val.none)] "_channel"
        ((pyGet_append_tail (d ++ [("exc_info", Val.none)]) [("frame", Val.none)]
          "_channel" ((pyGet_append_tail d [("exc_info", Val.none)]
            "_channel" hch).trans rfl)).trans rfl)).trans rfl)).trans rfl
  have s5 : pySet ((((d ++ [("exc_info", Val.none)]) ++ [("frame", Val.none)]) ++
        [("calling_frame", Val.none)]) ++ [("_information_pulled", Val.bool true)])
      "_channel" Val.none =
      ((((d ++ [("exc_info", Val.none)]) ++ [("frame", Val.none)]) ++
        [("calling_frame", Val.none)]) ++ [("_information_pulled", Val.bool true)]) ++
        [("_channel", Val.none)] :=
    pySet_not_mem _ _ _ g5
  have hchain : pySet (pySet (nonedOnClose.foldl (fun acc k => pySet acc k Val.none)
      (pyUpdate [] d)) "_information_pulled" (Val.bool true)) "_channel" Val.none =
      d ++ [("exc_info", Val.none), ("frame", Val.none), ("calling_frame", Val.none),
        ("_information_pulled", Val.bool true), ("_channel", Val.none)] := by
    rw [pyUpdate_nil d hnd]
    rw [show nonedOnClose.foldl (fun acc k => pySet acc k Val.none) d =
      pySet (pySet (pySet d "exc_info" Val.none) "frame" Val.none)
        "calling_frame" Val.none from rfl]
    rw [s1, s2, s3, s4, s5]
    simp [List.append_assoc]
  have htime : pyGet (d ++ [("exc_info", Val.none), ("frame", Val.none),
      ("calling_frame", Val.none), ("_information_pulled", Val.bool true),
      ("_channel", Val.none)]) "time" = pyGet d "time" := by
    cases hgt : pyGet d "time" with
    | none =>
      rw [pyGet_append, hgt]
      rfl
    | some v => rw [pyGet_append, hgt]
  have hnotstr : ∀ t, pyGetAttr (d ++ [("exc_info", Val.none), ("frame", Val.none),
      ("calling_frame", Val.none), ("_information_pulled", Val.bool true),
      ("_channel", Val.none)]) "time" ≠ Val.timeStr t := by
    intro t hv
    rw [pyGetAttr] at hv
    cases hg2 : pyGet (d ++ [("exc_info", Val.none), ("frame", Val.none),
        ("calling_frame", Val.none), ("_information_pulled", Val.bool true),
        ("_channel", Val.none)]) "time" with
    | none => rw [hg2] at hv; cases hv
    | some v =>
      rw [hg2] at hv
      subst hv
      exact htm t (htime ▸ hg2)
  simp only [from_dict, update_from_dict]
  rw [hchain]
  cases hv : pyGetAttr (d ++ [("exc_info", Val.none), ("frame", Val.none),
      ("calling_frame", Val.none), ("_information_pulled", Val.bool true),
      ("_channel", Val.none)]) "time" <;>
    first
    | rfl
    | exact absurd hv (hnotstr _)

theorem roundtrip_good (env : Env) (d : PyDict) (hg : GoodDict d) :
    to_dict env (from_dict env d) = Except.ok d := by
  obtain ⟨hall, hnd, ⟨ipv, hip, hipt⟩, ⟨es, hex⟩, htm⟩ := hg
  rw [from_dict_good env d ⟨hall, hnd, ⟨ipv, hip, hipt⟩, ⟨es, hex⟩, htm⟩]
  have hipget : pyGet (d ++ [("exc_info", Val.none), ("frame", Val.none),
      ("calling_frame", Val.none), ("_information_pulled", Val.bool true),
      ("_channel", Val.none)]) "information_pulled" = some ipv := by
    rw [pyGet_append, hip]
  have hipattr : pyGetAttr (d ++ [("exc_info", Val.none), ("frame", Val.none),
      ("calling_frame", Val.none), ("_information_pulled", Val.bool true),
      ("_channel", Val.none)]) "information_pulled" = ipv := by
    rw [pyGetAttr, hipget]
  have hpull : pull_information env (d ++ [("exc_info", Val.none),
      ("frame", Val.none), ("calling_frame", Val.none),
      ("_information_pulled", Val.bool true), ("_channel", Val.none)]) =
      d ++ [("exc_info", Val.none), ("frame", Val.none), ("calling_frame", Val.none),
        ("_information_pulled", Val.bool true), ("_channel", Val.none)] := by
    simp [pull_information, hipattr, hipt]
  have hfil : ((d ++ [("exc_info", Val.none), ("frame", Val.none),
      ("calling_frame", Val.none), ("_information_pulled", Val.bool true),
      ("_channel", Val.none)]).filter fun kv => goodKey kv.1) = d := by
    rw [List.filter_append, List.filter_eq_self.mpr hall]
    rw [show (([("exc_info", Val.none), ("frame", Val.none),
      ("calling_frame", Val.none), ("_information_pulled", Val.bool true),
      ("_channel", Val.none)] : PyDict).filter fun kv => goodKey kv.1) = [] from rfl]
    simp
  simp only [to_dict]
  rw [hpull, hfil, hex]
  show Except.ok (pySet d "extra" (Val.dict es)) = Except.ok d
  rw [pySet_get_same d "extra" (Val.dict es) hex]

/-! ### Traversal analysis for call_handlers -/

theorem heavy_init_ok (env : Env) (r : PyDict)
    (h : truthy (pyGetAttr r "late") = false) :
    ∃ r1, heavy_init env r = Except.ok r1 := by
  simp only [heavy_init]
  split
  · exact ⟨r, rfl⟩
  · rw [if_neg (by simp [h])]
    split
    · exact ⟨_, rfl⟩
    · exact ⟨_, rfl⟩

theorem heavy_init_error (env : Env) (r : PyDict) (e : PyErr)
    (h : heavy_init env r = Except.error e) : e = PyErr.assertHeavyLate := by
  simp only [heavy_init] at h
  split at h
  · cases h
  · split at h
    · injection h with h
      exact h.symm
    · split at h <;> cases h

theorem aux_invoked_spec (env : Env) (procFn : PyDict → PyDict) :
    ∀ (hs : List Handler) (r : PyDict) (ri : Bool) (res : CHResult),
      call_handlers_aux env procFn hs r ri = res →
      ∀ (i : Nat) (r1 : PyDict), (i, r1) ∈ res.invoked →
      ∃ h, hs.get? i = some h ∧ h.blackhole = false ∧
        ∀ f, h.filter = some f → f r1 = true := by
  intro hs
  induction hs with
  | nil =>
    intro r ri res hres i r1 hmem
    subst hres
    simp [call_handlers_aux] at hmem
  | cons h hs ih =>
    intro r ri res hres i r1 hmem
    simp only [call_handlers_aux] at hres
    split at hres
    · -- level skip
      subst hres
      simp only [chShift, List.mem_map] at hmem
      obtain ⟨⟨j, rj⟩, hj, heq⟩ := hmem
      obtain ⟨hi, hr⟩ := Prod.mk.injEq _ _ _ _ ▸ heq
      subst hi
      subst hr
      exact ih r ri _ rfl j rj hj
    · split at hres
      · -- blackhole break
        subst hres
        simp at hmem
      · -- past the blackhole check
        rename_i hlv hbh
        rw [Bool.not_eq_true] at hbh
        split at hres
        · -- heavy_init raised
          subst hres
          simp at hmem
        · -- initialisation succeeded with record rA
          rename_i rA hinit
          split at hres
          · -- filter veto: skip
            rename_i hskip
            subst hres
            simp only [chShift, List.mem_map] at hmem
            obtain ⟨⟨j, rj⟩, hj, heq⟩ := hmem
            obtain ⟨hi, hr⟩ := Prod.mk.injEq _ _ _ _ ▸ heq
            subst hi
            subst hr
            exact ih rA true _ rfl j rj hj
          · rename_i hskip
            have hfilt : ∀ f, h.filter = some f → f rA = true := by
              intro f hf
              rw [hf] at hskip
              simpa using hskip
            split at hres
            · -- handled, not bubbling: break
              subst hres
              simp only [List.mem_singleton] at hmem
              obtain ⟨hi, hr⟩ := Prod.mk.injEq _ _ _ _ ▸ hmem
              subst hi
              subst hr
              exact ⟨h, rfl, hbh, hfilt⟩
            · -- handled (or not accepted), continue
              subst hres
              simp only [List.mem_cons] at hmem
              rcases hmem with heq | hmem
              · obtain ⟨hi, hr⟩ := Prod.mk.injEq _ _ _ _ ▸ heq
                subst hi
                subst hr
                exact ⟨h, rfl, hbh, hfilt⟩
              · simp only [chShift, List.mem_map] at hmem
                obtain ⟨⟨j, rj⟩, hj, heq⟩ := hmem
                obtain ⟨hi, hr⟩ := Prod.mk.injEq _ _ _ _ ▸ heq
                subst hi
                subst hr
                exact ih rA true _ rfl j rj hj

theorem aux_brk_spec (env : Env) (procFn : PyDict → PyDict) :
    ∀ (hs : List Handler) (r : PyDict) (ri : Bool) (res : CHResult),
      call_handlers_aux env procFn hs r ri = res →
      ∀ i : Nat, res.brk = some i →
      ∃ h, hs.get? i = some h ∧ (h.blackhole = true ∨
        ∃ r1, (i, r1) ∈ res.invoked ∧ h.handle r1 = true ∧ h.bubble = false) := by
  intro hs
  induction hs with
  | nil =>
    intro r ri res hres i hbrk
    subst hres
    cases hbrk
  | cons h hs ih =>
    intro r ri res hres i hbrk
    simp only [call_handlers_aux] at hres
    split at hres
    · subst hres
      simp only [chShift, Option.map_eq_some'] at hbrk
      obtain ⟨j, hj, hij⟩ := hbrk
      subst hij
      obtain ⟨h2, hget, hcase⟩ := ih r ri _ rfl j hj
      refine ⟨h2, hget, ?_⟩
      rcases hcase with hc | ⟨r1, hm, hh, hb⟩
      · exact Or.inl hc
      · refine Or.inr ⟨r1, ?_, hh, hb⟩
        exact List.mem_map_of_mem (fun q => (q.1 + 1, q.2)) hm
    · split at hres
      · -- blackhole break at the head
        rename_i hlv hbh
        subst hres
        simp only [Option.some.injEq] at hbrk
        subst hbrk
        exact ⟨h, rfl, Or.inl hbh⟩
      · split at hres
        · subst hres
          cases hbrk
        · rename_i hlv hbh rA hinit
          split at hres
          · subst hres
            simp only [chShift, Option.map_eq_some'] at hbrk
            obtain ⟨j, hj, hij⟩ := hbrk
            subst hij
            obtain ⟨h2, hget, hcase⟩ := ih rA true _ rfl j hj
            refine ⟨h2, hget, ?_⟩
            rcases hcase with hc | ⟨r1, hm, hh, hb⟩
            · exact Or.inl hc
            · refine Or.inr ⟨r1, ?_, hh, hb⟩
              exact List.mem_map_of_mem (fun q => (q.1 + 1, q.2)) hm
          · rename_i hskip
            split at hres
            · -- handled and not bubbling
              rename_i hhb
              subst hres
              simp only [Option.some.injEq] at hbrk
              subst hbrk
              obtain ⟨hh, hb⟩ := Bool.and_eq_true _ _ ▸ hhb
              refine ⟨h, rfl, Or.inr ⟨rA, List.mem_singleton_self _, hh, ?_⟩⟩
              simpa using hb
            · subst hres
              simp only [chShift, Option.map_eq_some'] at hbrk
              obtain ⟨j, hj, hij⟩ := hbrk
              subst hij
              obtain ⟨h2, hget, hcase⟩ := ih rA true _ rfl j hj
              refine ⟨h2, hget, ?_⟩
              rcases hcase with hc | ⟨r1, hm, hh, hb⟩
              · exact Or.inl hc
              · refine Or.inr ⟨r1, ?_, hh, hb⟩
                refine List.mem_cons_of_mem _ ?_
                exact List.mem_map_of_mem (fun q => (q.1 + 1, q.2)) hm

theorem aux_break_of_handled (env : Env) (procFn : PyDict → PyDict) :
    ∀ (hs : List Handler) (r : PyDict) (ri : Bool) (res : CHResult),
      call_handlers_aux env procFn hs r ri = res →
      ∀ (i : Nat) (r1 : PyDict) (h : Handler),
        (i, r1) ∈ res.invoked → hs.get? i = some h →
        h.handle r1 = true → h.bubble = false →
        res.brk = some i ∧ ∀ (j : Nat) (rj : PyDict), (j, rj) ∈ res.invoked → j ≤ i := by
  intro hs
  induction hs with
  | nil =>
    intro r ri res hres i r1 h hmem _ _ _
    subst hres
    simp [call_handlers_aux] at hmem
  | cons h0 hs ih =>
    intro r ri res hres i r1 h hmem hget hh hb
    simp only [call_handlers_aux] at hres
    split at hres
    · subst hres
      simp only [chShift, List.mem_map] at hmem
      obtain ⟨⟨j, rj⟩, hj, heq⟩ := hmem
      obtain ⟨hi, hr⟩ := Prod.mk.injEq _ _ _ _ ▸ heq
      subst hi
      subst hr
      obtain ⟨hbrk, hbound⟩ := ih r ri _ rfl j rj h hj hget hh hb
      constructor
      · simp [chShift, hbrk]
      · intro j2 rj2 hmem2
        simp only [chShift, List.mem_map] at hmem2
        obtain ⟨⟨j3, rj3⟩, hj3, heq3⟩ := hmem2
        obtain ⟨hi3, hr3⟩ := Prod.mk.injEq _ _ _ _ ▸ heq3
        subst hi3
        subst hr3
        exact Nat.succ_le_succ (hbound j3 rj3 hj3)
    · split at hres
      · subst hres
        simp at hmem
      · split at hres
        · subst hres
          simp at hmem
        · rename_i hlv hbh rA hinit
          split at hres
          · subst hres
            simp only [chShift, List.mem_map] at hmem
            obtain ⟨⟨j, rj⟩, hj, heq⟩ := hmem
            obtain ⟨hi, hr⟩ := Prod.mk.injEq _ _ _ _ ▸ heq
            subst hi
            subst hr
            obtain ⟨hbrk, hbound⟩ := ih rA true _ rfl j rj h hj hget hh hb
            constructor
            · simp [chShift, hbrk]
            · intro j2 rj2 hmem2
              simp only [chShift, List.mem_map] at hmem2
              obtain ⟨⟨j3, rj3⟩, hj3, heq3⟩ := hmem2
              obtain ⟨hi3, hr3⟩ := Prod.mk.injEq _ _ _ _ ▸ heq3
              subst hi3
              subst hr3
              exact Nat.succ_le_succ (hbound j3 rj3 hj3)
          · rename_i hskip
            split at hres
            · -- break at the head handler
              subst hres
              simp only [List.mem_singleton] at hmem
              obtain ⟨hi, hr⟩ := Prod.mk.injEq _ _ _ _ ▸ hmem
              subst hi
              subst hr
              refine ⟨rfl, ?_⟩
              intro j2 rj2 hmem2
              simp only [List.mem_singleton] at hmem2
              obtain ⟨hi2, _⟩ := Prod.mk.injEq _ _ _ _ ▸ hmem2
              subst hi2
              exact Nat.le_refl 0
            · rename_i hhb
              subst hres
              simp only [List.mem_cons] at hmem
              rcases hmem with heq | hmem
              · -- the head handler was invoked, accepted and does not bubble,
                -- contradicting the continue branch's condition
                obtain ⟨hi, hr⟩ := Prod.mk.injEq _ _ _ _ ▸ heq
                subst hi
                subst hr
                have hgete : h0 = h := by
                  simpa using hget
                subst hgete
                rw [hh, hb] at hhb
                simp at hhb
              · simp only [chShift, List.mem_map] at hmem
                obtain ⟨⟨j, rj⟩, hj, heq⟩ := hmem
                obtain ⟨hi, hr⟩ := Prod.mk.injEq _ _ _ _ ▸ heq
                subst hi
                subst hr
                obtain ⟨hbrk, hbound⟩ := ih rA true _ rfl j rj h hj hget hh hb
                constructor
                · simp [chShift, hbrk]
                · intro j2 rj2 hmem2
                  simp only [List.mem_cons] at hmem2
                  rcases hmem2 with heq2 | hmem2
                  · obtain ⟨hi2, _⟩ := Prod.mk.injEq _ _ _ _ ▸ heq2
                    subst hi2
                    exact Nat.zero_le _
                  · simp only [chShift, List.mem_map] at hmem2
                    obtain ⟨⟨j3, rj3⟩, hj3, heq3⟩ := hmem2
                    obtain ⟨hi3, hr3⟩ := Prod.mk.injEq _ _ _ _ ▸ heq3
                    subst hi3
                    subst hr3
                    exact Nat.succ_le_succ (hbound j3 rj3 hj3)

theorem aux_err_spec (env : Env) (procFn : PyDict → PyDict) :
    ∀ (hs : List Handler) (r : PyDict) (ri : Bool) (res : CHResult),
      call_handlers_aux env procFn hs r ri = res →
      res.err = Option.none ∨ res.err = some PyErr.assertHeavyLate := by
  intro hs
  induction hs with
  | nil =>
    intro r ri res hres
    subst hres
    exact Or.inl rfl
  | cons h hs ih =>
    intro r ri res hres
    simp only [call_handlers_aux] at hres
    split at hres
    · subst hres
      exact ih r ri (call_handlers_aux env procFn hs r ri) rfl
    · split at hres
      · subst hres
        exact Or.inl rfl
      · split at hres
        · -- the initialisation step raised
          rename_i hlv hbh e hinit
          subst hres
          refine Or.inr ?_
          simp only [CHResult.err, Option.some.injEq]
          split at hinit
          · cases hinit
          · cases hh : heavy_init env r with
            | ok r1 => rw [hh] at hinit; cases hinit
            | error e2 =>
              rw [hh] at hinit
              injection hinit with hinit
              rw [← hinit]
              exact heavy_init_error env r e2 hh
        · rename_i hlv hbh rA hinit
          split at hres
          · subst hres
            exact ih rA true (call_handlers_aux env procFn hs rA true) rfl
          · split at hres
            · subst hres
              exact Or.inl rfl
            · subst hres
              exact ih rA true (call_handlers_aux env procFn hs rA true) rfl

theorem aux_err_fresh (env : Env) (procFn : PyDict → PyDict) :
    ∀ (hs : List Handler) (r : PyDict) (ri : Bool) (res : CHResult),
      call_handlers_aux env procFn hs r ri = res →
      (ri = true ∨ truthy (pyGetAttr r "late") = false) →
      res.err = Option.none := by
  intro hs
  induction hs with
  | nil =>
    intro r ri res hres _
    subst hres
    rfl
  | cons h hs ih =>
    intro r ri res hres hcond
    simp only [call_handlers_aux] at hres
    split at hres
    · subst hres
      exact ih r ri (call_handlers_aux env procFn hs r ri) rfl hcond
    · split at hres
      · subst hres
        rfl
      · split at hres
        · -- the initialisation step cannot raise here
          rename_i hlv hbh e hinit
          exfalso
          split at hinit
          · cases hinit
          · rcases hcond with hcond | hcond
            · rename_i hri
              simp [hcond] at hri
            · obtain ⟨r1, hok⟩ := heavy_init_ok env r hcond
              rw [hok] at hinit
              cases hinit
        · rename_i hlv hbh rA hinit
          split at hres
          · subst hres
            exact ih rA true (call_handlers_aux env procFn hs rA true) rfl (Or.inl rfl)
          · split at hres
            · subst hres
              rfl
            · subst hres
              exact ih rA true (call_handlers_aux env procFn hs rA true) rfl (Or.inl rfl)

theorem init_get_late (ch lv ms ar kw ex xt fr dp : Val) :
    pyGet (LogRecord_init ch lv ms ar kw ex xt fr dp) "late" = Option.none := rfl

theorem init_attr_level (ch lv ms ar kw ex xt fr dp : Val) :
    pyGetAttr (LogRecord_init ch lv ms ar kw ex xt fr dp) "level" = lv := rfl

theorem init_attr_exc_info (ch lv ms ar kw ex xt fr dp : Val) :
    pyGetAttr (LogRecord_init ch lv ms ar kw ex xt fr dp) "exc_info" = ex := rfl

theorem init_attr_msg (ch lv ms ar kw ex xt fr dp : Val) :
    pyGetAttr (LogRecord_init ch lv ms ar kw ex xt fr dp) "msg" = ms := rfl

theorem init_attr_channel (ch lv ms ar kw ex xt fr dp : Val) :
    pyGetAttr (LogRecord_init ch lv ms ar kw ex xt fr dp) "channel" = ch := rfl

/-! ### The logging call chain -/

theorem pyGetAttr_set_self (l : PyDict) (k : String) (v : Val) :
    pyGetAttr (pySet l k v) k = v := by
  rw [pyGetAttr, pyGet_pySet_self]

theorem pyGetAttr_set_ne (l : PyDict) (k k2 : String) (v : Val) (h : k2 ≠ k) :
    pyGetAttr (pySet l k v) k2 = pyGetAttr l k2 := by
  rw [pyGetAttr, pyGetAttr, pyGet_pySet_ne _ _ _ _ h]

theorem init_late_false (ch lv ms ar kw ex xt fr dp : Val) :
    truthy (pyGetAttr (LogRecord_init ch lv ms ar kw ex xt fr dp) "late") = false := rfl

theorem call_handlers_err_fresh (env : Env) (procFn : PyDict → PyDict)
    (dh ch : List Handler) (r : PyDict)
    (h : truthy (pyGetAttr r "late") = false) :
    (call_handlers env procFn dh ch r).err = Option.none :=
  aux_err_fresh env procFn (dh ++ ch) r false
    (call_handlers env procFn dh ch r) rfl (Or.inr h)

theorem handle_err_fresh (env : Env) (cfg : LoggerCfg) (r : PyDict)
    (h : truthy (pyGetAttr r "late") = false) :
    (RecordDispatcher_handle env cfg r).2 = Option.none := by
  simp only [RecordDispatcher_handle]
  split
  · exact call_handlers_err_fresh env cfg.procFn cfg.handlers cfg.ctxHandlers r h
  · rfl

theorem handle_err_spec (env : Env) (cfg : LoggerCfg) (r : PyDict) :
    (RecordDispatcher_handle env cfg r).2 = Option.none ∨
    (RecordDispatcher_handle env cfg r).2 = some PyErr.assertHeavyLate := by
  simp only [RecordDispatcher_handle]
  split
  · exact aux_err_spec env cfg.procFn (cfg.handlers ++ cfg.ctxHandlers) r false
      (call_handlers env cfg.procFn cfg.handlers cfg.ctxHandlers r) rfl
  · exact Or.inl rfl

theorem mrh_created (name : Val) (suppress : Bool) (selfRef : Val)
    (handleFn : PyDict → PyDict × Option PyErr) (level : Int)
    (msg args kwargs exc_info extra : Val) :
    (make_record_and_handle name suppress selfRef handleFn level msg args kwargs
      exc_info extra).created =
    LogRecord_init name (Val.int level) msg args kwargs exc_info extra Val.none
      (if suppress then Val.none else selfRef) := rfl

theorem mrh_err (name : Val) (suppress : Bool) (selfRef : Val)
    (handleFn : PyDict → PyDict × Option PyErr) (level : Int)
    (msg args kwargs exc_info extra : Val) :
    (make_record_and_handle name suppress selfRef handleFn level msg args kwargs
      exc_info extra).err =
    (handleFn (LogRecord_init name (Val.int level) msg args kwargs exc_info extra
      Val.none (if suppress then Val.none else selfRef))).2 := rfl

theorem logger_mrh_err_none (env : Env) (cfg : LoggerCfg) (level : Int)
    (msg args kwargs exc_info extra : Val) :
    (Logger_make_record_and_handle env cfg level msg args kwargs exc_info extra).err =
      Option.none := by
  rw [Logger_make_record_and_handle, mrh_err]
  exact handle_err_fresh env cfg _ (init_late_false _ _ _ _ _ _ _ _ _)

theorem LoggerMixin_log_cons (env : Env) (cfg : LoggerCfg) (level : Int)
    (m : Val) (rest : List Val) (kwargs : PyDict) :
    LoggerMixin_log env cfg level (m :: rest) kwargs =
      ⟨[(Logger_make_record_and_handle env cfg level m (Val.tuple rest)
          (Val.dict (pyDel (pyDel kwargs "exc_info") "extra"))
          ((pyGet kwargs "exc_info").getD Val.none)
          ((pyGet (pyDel kwargs "exc_info") "extra").getD Val.none)).created],
        (Logger_make_record_and_handle env cfg level m (Val.tuple rest)
          (Val.dict (pyDel (pyDel kwargs "exc_info") "extra"))
          ((pyGet kwargs "exc_info").getD Val.none)
          ((pyGet (pyDel kwargs "exc_info") "extra").getD Val.none)).err⟩ := rfl

theorem log_err_spec (env : Env) (cfg : LoggerCfg) (level : Int)
    (args : List Val) (kwargs : PyDict) :
    (LoggerMixin_log env cfg level args kwargs).err = Option.none ∨
    (LoggerMixin_log env cfg level args kwargs).err = some PyErr.indexError ∨
    (LoggerMixin_log env cfg level args kwargs).err = some PyErr.assertHeavyLate := by
  cases args with
  | nil => exact Or.inr (Or.inl rfl)
  | cons m rest =>
    rw [LoggerMixin_log_cons]
    rw [show (⟨[(Logger_make_record_and_handle env cfg level m (Val.tuple rest)
        (Val.dict (pyDel (pyDel kwargs "exc_info") "extra"))
        ((pyGet kwargs "exc_info").getD Val.none)
        ((pyGet (pyDel kwargs "exc_info") "extra").getD Val.none)).created],
      (Logger_make_record_and_handle env cfg level m (Val.tuple rest)
        (Val.dict (pyDel (pyDel kwargs "exc_info") "extra"))
        ((pyGet kwargs "exc_info").getD Val.none)
        ((pyGet (pyDel kwargs "exc_info") "extra").getD Val.none)).err⟩ :
      LogOutcome).err = (Logger_make_record_and_handle env cfg level m (Val.tuple rest)
        (Val.dict (pyDel (pyDel kwargs "exc_info") "extra"))
        ((pyGet kwargs "exc_info").getD Val.none)
        ((pyGet (pyDel kwargs "exc_info") "extra").getD Val.none)).err from rfl]
    rw [logger_mrh_err_none]
    exact Or.inl rfl

theorem error_err_ne (env : Env) (cfg : LoggerCfg) (args : List Val)
    (kwargs : PyDict) :
    (LoggerMixin_error env cfg args kwargs).err ≠ some PyErr.assertNoException := by
  unfold LoggerMixin_error
  split
  · rcases log_err_spec env cfg 5 args kwargs with h | h | h <;> rw [h] <;> simp
  · simp

theorem exception_with_exc (env : Env) (cfg : LoggerCfg) (cur : Option Val)
    (args : List Val) (kwargs : PyDict) (v : Val)
    (h : pyGet kwargs "exc_info" = some v) :
    LoggerMixin_exception env cfg cur args kwargs =
      LoggerMixin_error env cfg args kwargs := by
  unfold LoggerMixin_exception
  rw [h]

theorem catchRun_some (env : Env) (cfg : LoggerCfg) (args0 : List Val)
    (kwargs0 : PyDict) (e : Val) (hlv : cfg.levelEff ≤ 5) (m : Val) (rest : List Val)
    (hargs : (if args0.isEmpty then [Val.str "Uncaught exception occurred"]
      else args0) = m :: rest) :
    catchRun env cfg args0 kwargs0 (some e) =
      ⟨[LogRecord_init cfg.name (Val.int 5) m (Val.tuple rest)
          (Val.dict (pyDel (pyDel (pySet kwargs0 "exc_info" e) "exc_info") "extra"))
          e
          ((pyGet (pyDel (pySet kwargs0 "exc_info" e) "exc_info") "extra").getD Val.none)
          Val.none (if cfg.suppress then Val.none else cfg.selfRef)],
        Option.none, true⟩ := by
  have hput : pyGet (pySet kwargs0 "exc_info" e) "exc_info" = some e :=
    pyGet_pySet_self _ _ _
  simp only [catchRun]
  rw [hargs]
  rw [exception_with_exc env cfg (some e) (m :: rest) (pySet kwargs0 "exc_info" e) e hput]
  unfold LoggerMixin_error
  rw [if_pos (show (5 : Int) ≥ cfg.levelEff from hlv)]
  rw [LoggerMixin_log_cons]
  rw [show (⟨[(Logger_make_record_and_handle env cfg 5 m (Val.tuple rest)
      (Val.dict (pyDel (pyDel (pySet kwargs0 "exc_info" e) "exc_info") "extra"))
      ((pyGet (pySet kwargs0 "exc_info" e) "exc_info").getD Val.none)
      ((pyGet (pyDel (pySet kwargs0 "exc_info" e) "exc_info") "extra").getD
        Val.none)).created],
    (Logger_make_record_and_handle env cfg 5 m (Val.tuple rest)
      (Val.dict (pyDel (pyDel (pySet kwargs0 "exc_info" e) "exc_info") "extra"))
      ((pyGet (pySet kwargs0 "exc_info" e) "exc_info").getD Val.none)
      ((pyGet (pyDel (pySet kwargs0 "exc_info" e) "exc_info") "extra").getD
        Val.none)).err⟩ : LogOutcome).err =
    (Logger_make_record_and_handle env cfg 5 m (Val.tuple rest)
      (Val.dict (pyDel (pyDel (pySet kwargs0 "exc_info" e) "exc_info") "extra"))
      ((pyGet (pySet kwargs0 "exc_info" e) "exc_info").getD Val.none)
      ((pyGet (pyDel (pySet kwargs0 "exc_info" e) "exc_info") "extra").getD
        Val.none)).err from rfl]
  rw [logger_mrh_err_none]
  rw [hput]
  rfl

/-! ### Context-object registry analysis -/

theorem insertDesc_perm (p : Nat × Nat) (l : List (Nat × Nat)) :
    (insertDesc p l).Perm (p :: l) := by
  induction l with
  | nil => exact List.Perm.refl _
  | cons q rest ih =>
    simp only [insertDesc]
    split
    · exact List.Perm.refl _
    · exact (ih.cons q).trans (List.Perm.swap p q rest)

theorem sortDesc_perm (l : List (Nat × Nat)) : (sortDesc l).Perm l := by
  induction l with
  | nil => exact List.Perm.refl _
  | cons p rest ih => exact (insertDesc_perm p (sortDesc rest)).trans (ih.cons p)

theorem insertDesc_sorted (p : Nat × Nat) (l : List (Nat × Nat))
    (h : l.Pairwise (fun a b => b.1 ≤ a.1)) :
    (insertDesc p l).Pairwise (fun a b => b.1 ≤ a.1) := by
  induction l with
  | nil => simp [insertDesc]
  | cons q rest ih =>
    obtain ⟨hq, hrest⟩ := List.pairwise_cons.mp h
    simp only [insertDesc]
    split
    · rename_i hle
      refine List.pairwise_cons.mpr ⟨?_, h⟩
      intro x hx
      rcases List.mem_cons.mp hx with hx | hx
      · subst hx
        exact hle
      · exact le_trans (hq x hx) hle
    · rename_i hgt
      refine List.pairwise_cons.mpr ⟨?_, ih hrest⟩
      intro x hx
      have hx2 : x ∈ p :: rest := (insertDesc_perm p rest).mem_iff.mp hx
      rcases List.mem_cons.mp hx2 with hx2 | hx2
      · subst hx2
        exact le_of_not_le hgt
      · exact hq x hx2

theorem sortDesc_sorted (l : List (Nat × Nat)) :
    (sortDesc l).Pairwise (fun a b => b.1 ≤ a.1) := by
  induction l with
  | nil => simp [sortDesc]
  | cons p rest ih => exact insertDesc_sorted p (sortDesc rest) ih

theorem cacheLookup_erase (c : List (Nat × List Nat)) (tid tid2 : Nat) :
    cacheLookup (cacheErase c tid) tid2 =
      if tid2 = tid then Option.none else cacheLookup c tid2 := by
  induction c with
  | nil =>
    simp only [cacheErase, List.filter_nil, cacheLookup]
    split <;> rfl
  | cons q rest ih =>
    obtain ⟨t, objs⟩ := q
    by_cases ht : t = tid
    · subst ht
      have he : cacheErase ((t, objs) :: rest) t = cacheErase rest t := by
        simp [cacheErase, List.filter_cons]
      rw [he, ih]
      by_cases h2 : tid2 = t
      · simp [h2]
      · simp [h2, cacheLookup, Ne.symm h2]
    · have he : cacheErase ((t, objs) :: rest) tid = (t, objs) :: cacheErase rest tid := by
        simp [cacheErase, List.filter_cons, ht]
      rw [he]
      by_cases h2 : t = tid2
      · subst h2
        simp [cacheLookup, ht]
      · simp only [cacheLookup, if_neg h2]
        exact ih

theorem cacheErase_len (c : List (Nat × List Nat)) (tid : Nat) :
    (cacheErase c tid).length ≤ c.length :=
  List.length_filter_le _ c

theorem fresh_congr (s2 s : RegState) (tid : Nat)
    (happ : s2.appStack = s.appStack)
    (hth : s2.threadStacks tid = s.threadStacks tid) :
    fresh s2 tid = fresh s tid := by
  unfold fresh
  rw [happ, hth]

theorem counter_not_mem (s : RegState) (hab : ∀ p ∈ s.appStack, p.1 < s.counter)
    (htb : ∀ tid, ∀ p ∈ s.threadStacks tid, p.1 < s.counter) (tid : Nat) :
    s.counter ∉ ((s.appStack ++ s.threadStacks tid).map Prod.fst) := by
  intro hmem
  rcases List.mem_map.mp hmem with ⟨p, hp, hfst⟩
  rcases List.mem_append.mp hp with hp2 | hp2
  · have := hab p hp2
    omega
  · have := htb tid p hp2
    omega

theorem regInv_pushT (s : RegState) (tid obj : Nat) (h : RegInv s) :
    RegInv (push_thread s tid obj) := by
  obtain ⟨hab, htb, hnd, hco, hcl⟩ := h
  refine ⟨?_, ?_, ?_, ?_, ?_⟩
  · intro p hp
    exact Nat.lt_succ_of_lt (hab p hp)
  · intro tid2 p hp
    simp only [push_thread] at hp
    by_cases ht : tid2 = tid
    · rw [if_pos ht] at hp
      rcases List.mem_append.mp hp with hp2 | hp2
      · exact Nat.lt_succ_of_lt (htb tid p hp2)
      · simp at hp2
        subst hp2
        exact Nat.lt_succ_self _
    · rw [if_neg ht] at hp
      exact Nat.lt_succ_of_lt (htb tid2 p hp)
  · intro tid2
    simp only [push_thread]
    by_cases ht : tid2 = tid
    · rw [if_pos ht]
      rw [← List.append_assoc, List.map_append]
      refine List.nodup_append.mpr ⟨hnd tid, List.nodup_singleton _, ?_⟩
      intro a ha hb
      simp only [List.map_cons, List.map_nil, List.mem_singleton] at hb
      subst hb
      exact counter_not_mem s hab htb tid ha
    · rw [if_neg ht]
      exact hnd tid2
  · intro tid2 objs hl
    simp only [push_thread] at hl
    rw [cacheLookup_erase] at hl
    split at hl
    · cases hl
    · rename_i hne
      rw [hco tid2 objs hl]
      exact (fresh_congr (push_thread s tid obj) s tid2 rfl
        (by simp [push_thread, hne])).symm
  · simp only [push_thread]
    exact le_trans (cacheErase_len s.cache tid) hcl

theorem regInv_pushA (s : RegState) (obj : Nat) (h : RegInv s) :
    RegInv (push_application s obj) := by
  obtain ⟨hab, htb, hnd, hco, hcl⟩ := h
  refine ⟨?_, ?_, ?_, ?_, ?_⟩
  · intro p hp
    simp only [push_application] at hp
    rcases List.mem_append.mp hp with hp2 | hp2
    · exact Nat.lt_succ_of_lt (hab p hp2)
    · simp at hp2
      subst hp2
      exact Nat.lt_succ_self _
  · intro tid2 p hp
    simp only [push_application] at hp
    exact Nat.lt_succ_of_lt (htb tid2 p hp)
  · intro tid2
    simp only [push_application]
    have hperm : (((s.appStack ++ [(s.counter, obj)]) ++ s.threadStacks tid2).map
        Prod.fst).Perm (((s.appStack ++ s.threadStacks tid2) ++
          [(s.counter, obj)]).map Prod.fst) := by
      refine List.Perm.map Prod.fst ?_
      rw [List.append_assoc, List.append_assoc]
      exact List.Perm.append_left s.appStack List.perm_append_comm
    rw [hperm.nodup_iff]
    rw [List.map_append]
    refine List.nodup_append.mpr ⟨hnd tid2, List.nodup_singleton _, ?_⟩
    intro a ha hb
    simp only [List.map_cons, List.map_nil, List.mem_singleton] at hb
    subst hb
    exact counter_not_mem s hab htb tid2 ha
  · intro tid2 objs hl
    cases hl
  · simp only [push_application, List.length_nil]
    omega

theorem regInv_popT (s : RegState) (tid obj : Nat) (s2 : RegState) (h : RegInv s)
    (hp : pop_thread s tid obj = some s2) : RegInv s2 := by
  obtain ⟨hab, htb, hnd, hco, hcl⟩ := h
  simp only [pop_thread] at hp
  split at hp
  · cases hp
  · split at hp
    · injection hp with hp
      subst hp
      refine ⟨hab, ?_, ?_, ?_, ?_⟩
      · intro tid2 p hmem
        dsimp only at hmem
        by_cases ht : tid2 = tid
        · rw [if_pos ht] at hmem
          exact htb tid p ((List.dropLast_sublist _).subset hmem)
        · rw [if_neg ht] at hmem
          exact htb tid2 p hmem
      · intro tid2
        dsimp only
        by_cases ht : tid2 = tid
        · rw [if_pos ht]
          refine (hnd tid).sublist ?_
          refine List.Sublist.map Prod.fst ?_
          exact (List.dropLast_sublist _).append_left s.appStack
        · rw [if_neg ht]
          exact hnd tid2
      · intro tid2 objs hl
        dsimp only at hl
        rw [cacheLookup_erase] at hl
        split at hl
        · cases hl
        · rename_i hne
          rw [hco tid2 objs hl]
          refine (fresh_congr _ s tid2 ?_ ?_).symm
          · rfl
          · simp [hne]
      · exact le_trans (cacheErase_len s.cache tid) hcl
    · cases hp

theorem regInv_popA (s : RegState) (obj : Nat) (s2 : RegState) (h : RegInv s)
    (hp : pop_application s obj = some s2) : RegInv s2 := by
  obtain ⟨hab, htb, hnd, hco, hcl⟩ := h
  simp only [pop_application] at hp
  split at hp
  · cases hp
  · split at hp
    · injection hp with hp
      subst hp
      refine ⟨?_, htb, ?_, ?_, ?_⟩
      · intro p hmem
        exact hab p ((List.dropLast_sublist _).subset hmem)
      · intro tid2
        refine (hnd tid2).sublist ?_
        refine List.Sublist.map Prod.fst ?_
        exact (List.dropLast_sublist _).append_right (s.threadStacks tid2)
      · intro tid2 objs hl
        cases hl
      · simp only [List.length_nil]
        omega
    · cases hp

theorem regInv_iter (s : RegState) (tid : Nat) (h : RegInv s) :
    RegInv (iter_context_objects s tid).2 := by
  obtain ⟨hab, htb, hnd, hco, hcl⟩ := h
  simp only [iter_context_objects]
  split
  · exact ⟨hab, htb, hnd, hco, hcl⟩
  · refine ⟨hab, htb, hnd, ?_, ?_⟩
    · intro tid2 objs hl
      simp only [cacheLookup] at hl
      split at hl
      · rename_i hte
        injection hl with hl
        subst hl
        subst hte
        exact (fresh_congr _ s tid rfl rfl).symm
      · split at hl
        · cases hl
        · rw [hco tid2 objs hl]
          exact (fresh_congr _ s tid2 rfl rfl).symm
    · simp only [List.length_cons]
      split
      · simp
      · rename_i hlen
        simp only [not_lt] at hlen
        omega

theorem regInv_init : RegInv regInit := by
  refine ⟨?_, ?_, ?_, ?_, ?_⟩
  · intro p hp
    cases hp
  · intro tid p hp
    cases hp
  · intro tid
    simp [regInit]
  · intro tid objs hl
    cases hl
  · simp [regInit]

theorem regRun_inv : ∀ (ops : List RegOp) (s s2 : RegState),
    RegInv s → regRun ops s = some s2 → RegInv s2 := by
  intro ops
  induction ops with
  | nil =>
    intro s s2 h hr
    injection hr with hr
    subst hr
    exact h
  | cons op ops ih =>
    intro s s2 h hr
    simp only [regRun] at hr
    cases op with
    | pushT tid obj =>
      simp only [regStep] at hr
      exact ih _ s2 (regInv_pushT s tid obj h) hr
    | pushA obj =>
      simp only [regStep] at hr
      exact ih _ s2 (regInv_pushA s obj h) hr
    | popT tid obj =>
      simp only [regStep] at hr
      split at hr
      · rename_i s1 hstep
        exact ih s1 s2 (regInv_popT s tid obj s1 h hstep) hr
      · cases hr
    | popA obj =>
      simp only [regStep] at hr
      split at hr
      · rename_i s1 hstep
        exact ih s1 s2 (regInv_popA s obj s1 h hstep) hr
      · cases hr
    | iterOp tid =>
      simp only [regStep] at hr
      exact ih _ s2 (regInv_iter s tid h) hr

/-! ### The claims -/

/-- Claim C1, counterexample: the blackhole handler `c1h0` is first in
dispatch order, yet because its level (10) is above the record's (5) the
level check of `call_handlers` skips it before the blackhole check is
reached; the record is then heavy-initialized and handler 1's `handle`
receives it — contradicting the claim as stated. -/
theorem c1_counterexample :
    c1h0.blackhole = true ∧
    (call_handlers envTest (fun r => r) [c1h0, c1h1] [] c1rec).inited = true ∧
    ((call_handlers envTest (fun r => r) [c1h0, c1h1] [] c1rec).invoked.map
      Prod.fst) = [1] :=
  ⟨rfl, rfl, rfl⟩

/-- Claim C1 (amended): if the first handler in dispatch order is a
blackhole handler whose level admits the record, the traversal terminates
immediately: `record.heavy_init()` is never called, no handler's `handle`
receives the record, and the record is returned untouched. -/
theorem c1_blackhole_short_circuit (env : Env) (procFn : PyDict → PyDict)
    (dh ch rest : List Handler) (h : Handler) (r : PyDict)
    (hsplit : dh ++ ch = h :: rest) (hbh : h.blackhole = true)
    (hlv : h.level ≤ record_level r) :
    call_handlers env procFn dh ch r = ⟨r, false, [], some 0, Option.none⟩ := by
  unfold call_handlers
  rw [hsplit]
  simp only [call_handlers_aux]
  rw [if_neg (not_lt.mpr hlv), if_pos hbh]

/-- Concrete instance of the amended C1 statement. -/
theorem c1_witness :
    call_handlers envTest (fun r => r) [c1wh] [c1h1] c1rec =
      ⟨c1rec, false, [], some 0, Option.none⟩ :=
  c1_blackhole_short_circuit envTest (fun r => r) [c1wh] [c1h1] [c1h1] c1wh c1rec
    rfl rfl (by decide)

/-- Claim C2, counterexample: the blackhole handler `c2h0` has
`bubble = true` and its level admits the record, yet it terminates the
traversal (the blackhole `break` fires regardless of `bubble`), and the
downstream handler `c2h1` never sees the record — contradicting the
claim's "a handler with bubble true never terminates the traversal". -/
theorem c2_counterexample :
    c2h0.bubble = true ∧ c2h0.blackhole = true ∧
    c2h0.level ≤ record_level c2rec ∧
    (call_handlers envTest (fun r => r) [c2h0, c2h1] [] c2rec).brk = some 0 ∧
    (call_handlers envTest (fun r => r) [c2h0, c2h1] [] c2rec).invoked = [] :=
  ⟨rfl, rfl, by decide, rfl, rfl⟩

/-- Claim C2 (amended): in `call_handlers`, (i) a handler whose `handle`
is invoked and returns true with `bubble` false terminates the traversal
and no later handler's `handle` is invoked; (ii) a non-blackhole handler
with `bubble` true never terminates the traversal (a blackhole terminates
it regardless of `bubble`); (iii) an invoked handler's filter accepted the
record, and (iv) a non-blackhole handler that terminates the traversal
was invoked — hence a handler whose filter rejects the record is skipped
without terminating the traversal. -/
theorem c2_bubble_semantics (env : Env) (procFn : PyDict → PyDict)
    (dh ch : List Handler) (r : PyDict) :
    (∀ (i : Nat) (r1 : PyDict) (h : Handler),
      (i, r1) ∈ (call_handlers env procFn dh ch r).invoked →
      (dh ++ ch).get? i = some h → h.handle r1 = true → h.bubble = false →
      (call_handlers env procFn dh ch r).brk = some i ∧
        ∀ (j : Nat) (rj : PyDict),
          (j, rj) ∈ (call_handlers env procFn dh ch r).invoked → j ≤ i) ∧
    (∀ (i : Nat) (h : Handler), (dh ++ ch).get? i = some h →
      h.blackhole = false → h.bubble = true →
      (call_handlers env procFn dh ch r).brk ≠ some i) ∧
    (∀ (i : Nat) (r1 : PyDict) (h : Handler) (f : PyDict → Bool),
      (i, r1) ∈ (call_handlers env procFn dh ch r).invoked →
      (dh ++ ch).get? i = some h → h.filter = some f → f r1 = true) ∧
    (∀ (i : Nat) (h : Handler), (call_handlers env procFn dh ch r).brk = some i →
      (dh ++ ch).get? i = some h → h.blackhole = false →
      ∃ r1, (i, r1) ∈ (call_handlers env procFn dh ch r).invoked) := by
  refine ⟨?_, ?_, ?_, ?_⟩
  · intro i r1 h hmem hget hh hb
    exact aux_break_of_handled env procFn (dh ++ ch) r false
      (call_handlers env procFn dh ch r) rfl i r1 h hmem hget hh hb
  · intro i h hget hbh hbb hbrk
    obtain ⟨h2, hget2, hcase⟩ := aux_brk_spec env procFn (dh ++ ch) r false
      (call_handlers env procFn dh ch r) rfl i hbrk
    rw [hget] at hget2
    injection hget2 with hget2
    subst hget2
    rcases hcase with hc | ⟨r1, _, _, hb⟩
    · rw [hbh] at hc
      cases hc
    · rw [hbb] at hb
      cases hb
  · intro i r1 h f hmem hget hf
    obtain ⟨h2, hget2, _, hfilt⟩ := aux_invoked_spec env procFn (dh ++ ch) r false
      (call_handlers env procFn dh ch r) rfl i r1 hmem
    rw [hget] at hget2
    injection hget2 with hget2
    subst hget2
    exact hfilt f hf
  · intro i h hbrk hget hbh
    obtain ⟨h2, hget2, hcase⟩ := aux_brk_spec env procFn (dh ++ ch) r false
      (call_handlers env procFn dh ch r) rfl i hbrk
    rw [hget] at hget2
    injection hget2 with hget2
    subst hget2
    rcases hcase with hc | ⟨r1, hm, _, _⟩
    · rw [hbh] at hc
      cases hc
    · exact ⟨r1, hm⟩

/-- Concrete instance of the amended C2 statement: the accepting
non-bubbling handler at position 0 terminates the traversal. -/
theorem c2_witness :
    (call_handlers envTest (fun r => r) [c2wh] [] c2rec).brk = some 0 :=
  ((c2_bubble_semantics envTest (fun r => r) [c2wh] [] c2rec).1 0 c2wr1 c2wh
    (by rw [show (call_handlers envTest (fun r => r) [c2wh] [] c2rec).invoked =
        [(0, c2wr1)] from rfl]
        exact List.Mem.head _)
    rfl rfl rfl).1

/-- Claim C3: in every reachable registry state, `iter_context_objects`
returns the objects of the application and thread scopes merged in
strictly decreasing push-sequence order — the returned list is the
projection of a permutation of both stacks sorted strictly descending on
the per-class sequence counter stamps. -/
theorem c3_iter_ordering (ops : List RegOp) (s : RegState) (tid : Nat)
    (h : regRun ops regInit = some s) :
    ∃ pairs : List (Nat × Nat),
      (iter_context_objects s tid).1 = pairs.map Prod.snd ∧
      pairs.Perm (s.appStack ++ s.threadStacks tid) ∧
      pairs.Pairwise (fun a b => b.1 < a.1) := by
  have hinv := regRun_inv ops regInit s regInv_init h
  refine ⟨sortDesc (s.appStack ++ s.threadStacks tid), ?_, sortDesc_perm _, ?_⟩
  · simp only [iter_context_objects]
    split
    · rename_i objs hl
      rw [hinv.cacheOK tid objs hl]
      rfl
    · rfl
  · have hsort := sortDesc_sorted (s.appStack ++ s.threadStacks tid)
    have hndm : ((sortDesc (s.appStack ++ s.threadStacks tid)).map Prod.fst).Nodup :=
      (((sortDesc_perm (s.appStack ++ s.threadStacks tid)).map Prod.fst).nodup_iff).mpr
        (hinv.ndk tid)
    have hne : (sortDesc (s.appStack ++ s.threadStacks tid)).Pairwise
        (fun a b => a.1 ≠ b.1) := List.pairwise_map.mp hndm
    exact (hsort.and hne).imp (fun hx => lt_of_le_of_ne hx.1 (Ne.symm hx.2))

/-- Concrete instance of C3: after an application push, a thread push and
an iteration, the iteration for thread 0 is ordered. -/
theorem c3_witness :
    ∃ pairs : List (Nat × Nat),
      (iter_context_objects c3state 0).1 = pairs.map Prod.snd ∧
      pairs.Perm (c3state.appStack ++ c3state.threadStacks 0) ∧
      pairs.Pairwise (fun a b => b.1 < a.1) :=
  c3_iter_ordering [RegOp.pushA 10, RegOp.pushT 0 20, RegOp.iterOp 0] c3state 0 rfl

/-- Claim C4: for every record built by the constructor and taken through
any lifecycle (heavy-init, pull, close) that includes `pull_information`,
serialising, reconstructing with `from_dict` and serialising again yields
the same dictionary: `from_dict(r.to_dict()).to_dict() == r.to_dict()`.
(This holds despite `update_from_dict` writing the underscore-prefixed
`_information_pulled`/`_channel`: the non-underscored `information_pulled`
flag is itself part of the export and is restored by `__dict__.update`.) -/
theorem c4_serialisation_roundtrip (env : Env)
    (ch lv ms ar kw ex xt fr dp : Val) (ops : List LifeOp) (r d : PyDict)
    (_hpull : LifeOp.pullOp ∈ ops)
    (hrun : applyLife env ops (LogRecord_init ch lv ms ar kw ex xt fr dp) = some r)
    (hd : to_dict env r = Except.ok d) :
    to_dict env (from_dict env d) = Except.ok d :=
  roundtrip_good env d (toDict_good env r d
    (rwf_applyLife env ops (LogRecord_init ch lv ms ar kw ex xt fr dp) r
      (rwf_init ch lv ms ar kw ex xt fr dp) hrun) hd)

/-- Concrete instance of C4 on a record carrying kwargs, exception
information and extra data. -/
theorem c4_witness :
    ∃ r d, applyLife envTest c4ops c4rec0 = some r ∧
      to_dict envTest r = Except.ok d ∧
      to_dict envTest (from_dict envTest d) = Except.ok d :=
  ⟨_, _, rfl, rfl,
    c4_serialisation_roundtrip envTest (Val.str "chan") (Val.int 2)
      (Val.str "hello {n}") (Val.tuple []) (Val.dict [("n", Val.int 4)])
      (Val.ref 9) (Val.dict [("ip", Val.str "127.0.0.1")]) Val.none (Val.ref 3)
      c4ops _ _ (by decide) rfl rfl⟩

/-- Claim C5: a dispatcher's `level` and `disabled` resolve by the
group-reflected rule — a stored value different from the sentinel (NOTSET
for `level`, attribute absence for `disabled`) wins; otherwise the
attached group's value; otherwise the default.  In particular a member at
NOTSET sees the group's level, a non-NOTSET override wins, and deleting
the override re-inherits from the group. -/
theorem c5_group_reflection :
    (∀ (d : RD) (v : Int), d.lvlSlot = some v → v ≠ 0 → d.level_get = v) ∧
    (∀ d : RD, (d.lvlSlot = some 0 ∨ d.lvlSlot = Option.none) →
      d.level_get = (d.group.map LoggerGroupS.level).getD 0) ∧
    (∀ (d : RD) (b : Bool), d.disSlot = some b → d.disabled_get = b) ∧
    (∀ d : RD, d.disSlot = Option.none →
      d.disabled_get = (d.group.map LoggerGroupS.disabled).getD false) ∧
    (∀ g : LoggerGroupS, (RD.mk (some 0) Option.none (some g)).level_get = g.level) ∧
    (∀ (g : LoggerGroupS) (d : RD) (v : Int), d.group = some g → v ≠ 0 →
      (d.level_set v).level_get = v) ∧
    (∀ (g : LoggerGroupS) (d : RD), d.group = some g →
      ∀ v : Int, ((d.level_set v).level_del).map RD.level_get = some g.level) := by
  refine ⟨?_, ?_, ?_, ?_, ?_, ?_, ?_⟩
  · intro d v h hne
    simp only [RD.level_get, group_reflected_get, h]
    rw [if_pos (by simp [Ne.symm hne])]
  · intro d h
    rcases h with h | h <;> simp [RD.level_get, group_reflected_get, h]
  · intro d b h
    simp [RD.disabled_get, group_reflected_get, h]
  · intro d h
    simp [RD.disabled_get, group_reflected_get, h]
  · intro g
    simp [RD.level_get, group_reflected_get]
  · intro g d v hg hne
    simp only [RD.level_set, RD.level_get, group_reflected_get]
    rw [if_pos (by simp [Ne.symm hne])]
  · intro g d hg v
    simp [RD.level_set, RD.level_del, RD.level_get, group_reflected_get, hg]

/-- Concrete instance of C5: a member at NOTSET inherits the group level
3; a member override 5 wins. -/
theorem c5_witness :
    (RD.mk (some 0) Option.none (some ⟨3, false⟩)).level_get = 3 ∧
    ((RD.mk (some 0) Option.none (some ⟨3, false⟩)).level_set 5).level_get = 5 :=
  ⟨c5_group_reflection.2.2.2.2.1 ⟨3, false⟩,
   c5_group_reflection.2.2.2.2.2.1 ⟨3, false⟩
     (RD.mk (some 0) Option.none (some ⟨3, false⟩)) 5 rfl (by decide)⟩

/-- Claim C6: on every exit path of `make_record_and_handle` — including
when `handle` or a handler raises (`handleFn` is an arbitrary state
transformer with an optional raised exception) — the record ends with
`late` true, and unless its `keep_open` flag was set during handling,
`close()` has run, nulling `exc_info`, `frame` and `calling_frame`. -/
theorem c6_finally_guard (name : Val) (suppress : Bool) (selfRef : Val)
    (handleFn : PyDict → PyDict × Option PyErr) (level : Int)
    (msg args kwargs exc_info extra : Val) :
    truthy (pyGetAttr (make_record_and_handle name suppress selfRef handleFn level
      msg args kwargs exc_info extra).finalRec "late") = true ∧
    (truthy (pyGetAttr (make_record_and_handle name suppress selfRef handleFn level
        msg args kwargs exc_info extra).finalRec "keep_open") = false →
      pyGet (make_record_and_handle name suppress selfRef handleFn level msg args
        kwargs exc_info extra).finalRec "exc_info" = some Val.none ∧
      pyGet (make_record_and_handle name suppress selfRef handleFn level msg args
        kwargs exc_info extra).finalRec "frame" = some Val.none ∧
      pyGet (make_record_and_handle name suppress selfRef handleFn level msg args
        kwargs exc_info extra).finalRec "calling_frame" = some Val.none) := by
  simp only [make_record_and_handle]
  split
  all_goals
    split
    · rename_i hkeep
      constructor
      · rw [pyGetAttr_set_self]
        rfl
      · intro hko
        rw [hkeep] at hko
        cases hko
    · constructor
      · rw [close_eq, pyGetAttr_set_self]
        rfl
      · intro _
        rw [close_eq]
        refine ⟨?_, ?_, ?_⟩
        · rw [pyGet_pySet_ne _ _ _ _ (by decide), pyGet_pySet_ne _ _ _ _ (by decide),
            pyGet_pySet_ne _ _ _ _ (by decide), pyGet_pySet_self]
        · rw [pyGet_pySet_ne _ _ _ _ (by decide), pyGet_pySet_ne _ _ _ _ (by decide),
            pyGet_pySet_self]
        · rw [pyGet_pySet_ne _ _ _ _ (by decide), pyGet_pySet_self]

/-- Concrete instance of C6 with a handle step that raises: the record is
still marked late and closed. -/
theorem c6_witness :
    truthy (pyGetAttr (make_record_and_handle (Val.str "lg") false (Val.ref 1)
      c6handleFn 5 (Val.str "m") Val.none Val.none Val.none Val.none).finalRec
      "late") = true ∧
    pyGet (make_record_and_handle (Val.str "lg") false (Val.ref 1) c6handleFn 5
      (Val.str "m") Val.none Val.none Val.none Val.none).finalRec "exc_info" =
      some Val.none :=
  ⟨(c6_finally_guard (Val.str "lg") false (Val.ref 1) c6handleFn 5 (Val.str "m")
      Val.none Val.none Val.none Val.none).1,
   ((c6_finally_guard (Val.str "lg") false (Val.ref 1) c6handleFn 5 (Val.str "m")
      Val.none Val.none Val.none Val.none).2 rfl).1⟩

/-- Claim C7, counterexample: after 257 cache-missing iterations from 257
distinct threads the per-thread cache holds 257 entries — more than the
claimed cap of 256: the source clears only when the length already
exceeds `_MAX_CONTEXT_OBJECT_CACHE` before inserting. -/
theorem c7_counterexample :
    (regRun c7ops regInit).map (fun s => s.cache.length) =
      some (_MAX_CONTEXT_OBJECT_CACHE + 1) := rfl

/-- Claim C7 (amended): in every reachable registry state the iteration
cache holds at most 257 = `_MAX_CONTEXT_OBJECT_CACHE` + 1 entries: at a
cache miss the cache is cleared before inserting whenever it already
holds more than 256 entries, so a single insert at exactly 256 entries
may briefly take it to 257. -/
theorem c7_cache_bound (ops : List RegOp) (s : RegState)
    (h : regRun ops regInit = some s) :
    s.cache.length ≤ _MAX_CONTEXT_OBJECT_CACHE + 1 :=
  (regRun_inv ops regInit s regInv_init h).cacheLen

/-- Concrete instance of the amended C7 statement. -/
theorem c7_witness : c7wstate.cache.length ≤ _MAX_CONTEXT_OBJECT_CACHE + 1 :=
  c7_cache_bound [RegOp.iterOp 0] c7wstate rfl

/-- Claim C8, counterexample: under a logger whose effective level is
CRITICAL (6), a body raising a failure inside `catch_exceptions` produces
no record at all — `error()` gates on `ERROR >= self.level` — although the
failure is still swallowed; "exactly one record" fails as stated. -/
theorem c8_counterexample :
    (catchRun envTest cfg6 [] [] (some excE)).created = [] ∧
    (catchRun envTest cfg6 [] [] (some excE)).swallowed = true :=
  ⟨rfl, rfl⟩

/-- Claim C8 (amended): for every body under `catch_exceptions` that
raises a failure `e`, provided the logger's effective level admits ERROR
(`level <= 5`), exactly one record is created, at level ERROR, with
`exc_info` populated with `e`; the failure is swallowed (nothing
propagates out of the block); and when no positional message argument was
supplied, the record's message template is "Uncaught exception occurred". -/
theorem c8_catch_exceptions (env : Env) (cfg : LoggerCfg) (args0 : List Val)
    (kwargs0 : PyDict) (e : Val) (hlv : cfg.levelEff ≤ 5) :
    ∃ rec, catchRun env cfg args0 kwargs0 (some e) = ⟨[rec], Option.none, true⟩ ∧
      pyGetAttr rec "level" = Val.int 5 ∧ pyGetAttr rec "exc_info" = e ∧
      (args0 = [] → pyGetAttr rec "msg" = Val.str "Uncaught exception occurred") := by
  cases args0 with
  | nil =>
    refine ⟨_, catchRun_some env cfg [] kwargs0 e hlv
      (Val.str "Uncaught exception occurred") [] rfl, ?_, ?_, ?_⟩
    · exact init_attr_level _ _ _ _ _ _ _ _ _
    · exact init_attr_exc_info _ _ _ _ _ _ _ _ _
    · intro _
      exact init_attr_msg _ _ _ _ _ _ _ _ _
  | cons a as =>
    refine ⟨_, catchRun_some env cfg (a :: as) kwargs0 e hlv a as rfl, ?_, ?_, ?_⟩
    · exact init_attr_level _ _ _ _ _ _ _ _ _
    · exact init_attr_exc_info _ _ _ _ _ _ _ _ _
    · intro hcon
      cases hcon

/-- Concrete instance of the amended C8 statement. -/
theorem c8_witness :
    ∃ rec, catchRun envTest cfgTest [] [] (some excE) = ⟨[rec], Option.none, true⟩ ∧
      pyGetAttr rec "level" = Val.int 5 ∧ pyGetAttr rec "exc_info" = excE ∧
      (([] : List Val) = [] →
        pyGetAttr rec "msg" = Val.str "Uncaught exception occurred") :=
  c8_catch_exceptions envTest cfgTest [] [] excE (by decide)

/-- Claim C9: `heavy_init` on a record already heavy-initialized returns
without raising and without modifying any field, even when `late` is
true — the idempotence check precedes the not-late assertion. -/
theorem c9_heavy_init_idempotent (env : Env) (r : PyDict)
    (h : truthy (pyGetAttr r "heavy_initialized") = true) :
    heavy_init env r = Except.ok r := by
  simp only [heavy_init]
  rw [if_pos h]

/-- Concrete instance of C9 on a record that is both heavy-initialized
and late: no assertion fires and the record is unchanged. -/
theorem c9_witness :
    truthy (pyGetAttr [("heavy_initialized", Val.bool true),
      ("late", Val.bool true)] "late") = true ∧
    heavy_init envTest [("heavy_initialized", Val.bool true),
      ("late", Val.bool true)] =
      Except.ok [("heavy_initialized", Val.bool true), ("late", Val.bool true)] :=
  ⟨rfl, c9_heavy_init_idempotent envTest
    [("heavy_initialized", Val.bool true), ("late", Val.bool true)] rfl⟩

/-- Claim C10: when `exc_info` is explicitly among the keyword arguments,
`exception()` never evaluates the no-active-exception assertion — its
outcome does not depend on whether a failure is being handled and is never
the NoActiveException violation; that violation fires only when `exc_info`
is absent from the keyword arguments. -/
theorem c10_exception_exc_info (env : Env) (cfg : LoggerCfg) (args : List Val)
    (kwargs : PyDict) (v : Val) (cur cur2 : Option Val) :
    (pyGet kwargs "exc_info" = some v →
      LoggerMixin_exception env cfg cur args kwargs =
        LoggerMixin_exception env cfg cur2 args kwargs ∧
      (LoggerMixin_exception env cfg cur args kwargs).err ≠
        some PyErr.assertNoException) ∧
    ((LoggerMixin_exception env cfg cur args kwargs).err =
        some PyErr.assertNoException → pyGet kwargs "exc_info" = Option.none) := by
  constructor
  · intro h
    constructor
    · rw [exception_with_exc env cfg cur args kwargs v h,
        exception_with_exc env cfg cur2 args kwargs v h]
    · rw [exception_with_exc env cfg cur args kwargs v h]
      exact error_err_ne env cfg args kwargs
  · intro herr
    cases hg : pyGet kwargs "exc_info" with
    | none => rfl
    | some v2 =>
      rw [exception_with_exc env cfg cur args kwargs v2 hg] at herr
      exact absurd herr (error_err_ne env cfg args kwargs)

/-- Concrete instance of C10: with `exc_info` supplied and no active
failure, the call proceeds exactly as with an active failure and the
assertion never fires. -/
theorem c10_witness :
    LoggerMixin_exception envTest cfgTest Option.none [Val.str "m"] kw10 =
      LoggerMixin_exception envTest cfgTest (some excE) [Val.str "m"] kw10 ∧
    (LoggerMixin_exception envTest cfgTest Option.none [Val.str "m"] kw10).err ≠
      some PyErr.assertNoException :=
  (c10_exception_exc_info envTest cfgTest [Val.str "m"] kw10 (Val.ref 8)
    Option.none (some excE)).1 rfl
